import Mathlib

/-!
# DataGuard — verification of the Field Classification, Obligation, and
# Protection Engine

Shallow embedding of the core of the `dataguard` repository:

* `lib/processors/DataEncryptor.js` — authenticated field-level encryption
  (`DataEncryptor.encrypt` / `decrypt` / `isEncrypted` /
  `autoEncryptSensitiveFields` / `autoDecryptSensitiveFields`);
* `lib/processors/ConsentManager.js` — the consent ledger
  (`recordConsent` / `withdrawConsent` / `hasValidConsent` /
  `isGdprCompliantConsent`);
* `lib/core/RuleEngine.js` — classification, law resolution, obligations
  and the `process` pipeline.

Modelling conventions, fixed once here:

* JS dynamic values that can appear in engine-relevant record fields are
  modelled by `DG.JVal` (null/undefined, booleans, integers, strings).
  JS strings are embedded as `List Char`; record keys as `String`.
* `JSON.stringify` / `JSON.parse` (JS builtins, external to the repo) are
  modelled executably on this primitive universe (`jsonStringify` /
  `jsonParse`): keywords `null` / `true` / `false`, signed integers
  without leading zeros, and quoted strings with `\"` and `\\` escapes.
  Floating point numbers, arrays, objects and surrounding whitespace are
  outside the modelled value universe.
* Node's `crypto` AES-256-GCM (external to the repo) is modelled as an
  idealised AEAD: the keystream cipher is an XOR pad derived from
  (key, iv) and the authentication tag is an injective function of
  (key, iv, ciphertext) — the standard perfect-integrity idealisation of
  a MAC.  `pbkdf2Sync` is modelled as an injective pairing of the master
  key and the salt.  Key material, ivs, salts and tags are `Nat`.
* Randomness (`crypto.randomBytes`) and clock reads
  (`new Date().toISOString()`) are passed in as explicit parameters.
-/

set_option linter.unusedVariables false

namespace DG

/-- JS values occurring in record fields, restricted to the primitive
universe the claims quantify over (`null`/`undefined` are merged, as the
source treats them identically in every modelled code path). -/
inductive JVal where
  | null : JVal
  | bool : Bool → JVal
  | int  : Int → JVal
  | str  : List Char → JVal
deriving DecidableEq, Repr

/-- JS truthiness of a `JVal` (`undefined`/`null`, `false`, `0` and `""`
are falsy). -/
def truthy : JVal → Bool
  | .null => false
  | .bool b => b
  | .int n => n ≠ 0
  | .str s => s ≠ []

/-! ## Model of the JSON builtins (`JSON.stringify` / `JSON.parse`)

The decimal printer/parser pair is defined from scratch so that the
round-trip argument is fully inside the development. -/

/-- Decimal digit to character (`0`–`9`); total, out-of-range maps to `'0'`
(never reached on `d % 10`). -/
def digitChar (d : Nat) : Char :=
  match d with
  | 0 => '0' | 1 => '1' | 2 => '2' | 3 => '3' | 4 => '4'
  | 5 => '5' | 6 => '6' | 7 => '7' | 8 => '8' | 9 => '9'
  | _ => '0'

/-- Character to decimal digit, `none` on non-digits. -/
def digitVal (c : Char) : Option Nat :=
  if c = '0' then some 0 else if c = '1' then some 1
  else if c = '2' then some 2 else if c = '3' then some 3
  else if c = '4' then some 4 else if c = '5' then some 5
  else if c = '6' then some 6 else if c = '7' then some 7
  else if c = '8' then some 8 else if c = '9' then some 9
  else none

/-- Decimal representation of a natural number, most significant digit
first. -/
def toDecimal (n : Nat) : List Char :=
  if h : n < 10 then [digitChar n]
  else toDecimal (n / 10) ++ [digitChar (n % 10)]
decreasing_by exact Nat.div_lt_self (by omega) (by omega)

/-- Parse a non-empty all-digit list without redundant leading zeros
(matching the JSON grammar for integer literals). -/
def fromDecimal (l : List Char) : Option Nat :=
  if l = [] then none
  else if l.any (fun c => (digitVal c).isNone) then none
  else if 2 ≤ l.length ∧ l.headI = '0' then none
  else some (l.foldl (fun a c => a * 10 + (digitVal c).getD 0) 0)

/-- JSON string-body escaping (`"` and `\` get a backslash, as produced by
`JSON.stringify` on strings without control characters). -/
def escapeChars : List Char → List Char
  | [] => []
  | c :: rest =>
    if c = '"' ∨ c = '\\' then '\\' :: c :: escapeChars rest
    else c :: escapeChars rest

/-- Unescape map for the modelled escape sequences. -/
def unescapeChar (c : Char) : Option Char :=
  if c = '"' then some '"' else if c = '\\' then some '\\' else none

/-- Parse the body of a JSON string literal: consume characters up to an
unescaped closing quote, which must end the input. -/
def parseStrBody : List Char → Option (List Char)
  | [] => none
  | c :: rest =>
    if c = '\\' then
      match rest with
      | [] => none
      | e :: rest2 =>
        match unescapeChar e with
        | some c2 => (parseStrBody rest2).map (fun l => c2 :: l)
        | none => none
    else if c = '"' then
      if rest = [] then some [] else none
    else (parseStrBody rest).map (fun l => c :: l)

/-- Model of `JSON.stringify` on the primitive universe. -/
def jsonStringify : JVal → List Char
  | .null => ['n', 'u', 'l', 'l']
  | .bool b => if b then ['t', 'r', 'u', 'e'] else ['f', 'a', 'l', 's', 'e']
  | .int i =>
    if i < 0 then '-' :: toDecimal i.natAbs else toDecimal i.natAbs
  | .str s => '"' :: (escapeChars s ++ ['"'])

/-- Model of `JSON.parse` on the primitive universe: keywords, integers
(optionally signed, no redundant leading zeros) and string literals;
everything else fails. -/
def jsonParse (s : List Char) : Option JVal :=
  if s = ['n', 'u', 'l', 'l'] then some .null
  else if s = ['t', 'r', 'u', 'e'] then some (.bool true)
  else if s = ['f', 'a', 'l', 's', 'e'] then some (.bool false)
  else
    match s with
    | [] => none
    | c :: rest =>
      if c = '"' then (parseStrBody rest).map .str
      else if c = '-' then (fromDecimal rest).map (fun n => JVal.int (-(n : Int)))
      else (fromDecimal s).map (fun n => JVal.int (n : Int))

/-- JSON insignificant whitespace. -/
def jsonWs (c : Char) : Bool :=
  c = ' ' || c = '\t' || c = '\n' || c = '\r'

/-- Drop leading JSON whitespace. -/
def skipWs : List Char → List Char
  | [] => []
  | c :: rest => if jsonWs c then skipWs rest else c :: rest

/-- Characters that can begin a JSON text: an object, array, string,
number (optionally signed), or one of the keywords `true` / `false` /
`null`. -/
def jsonStartChar (c : Char) : Bool :=
  c = '{' || c = '[' || c = '"' || c = '-' || c = 't' || c = 'f' || c = 'n'
    || (digitVal c).isSome

/-- A conservative syntactic test for strings that `JSON.parse`
certainly rejects: after insignificant whitespace, the text is empty or
begins with a character that cannot start any JSON value, so the
builtin's lexer throws at its first token.  (The converse need not
hold: the model's parser also fails on e.g. floats and arrays, which
the builtin accepts — theorems about unparseable strings are therefore
stated with this sound under-approximation, never with the model
parser's failure.) -/
def jsonRejects (s : List Char) : Bool :=
  match skipWs s with
  | [] => true
  | c :: _ => !(jsonStartChar c)

/-! Round-trip lemmas for the JSON model. -/

theorem jsonParse_none_of_head (c : Char) (rest : List Char)
    (h1 : c ≠ '"') (h2 : c ≠ '-') (h3 : (digitVal c).isNone = true)
    (h4 : c ≠ 'n') (h5 : c ≠ 't') (h6 : c ≠ 'f') :
    jsonParse (c :: rest) = none := by
  rw [jsonParse]
  rw [if_neg (fun he => h4 (List.cons.inj he).1),
    if_neg (fun he => h5 (List.cons.inj he).1),
    if_neg (fun he => h6 (List.cons.inj he).1)]
  show (if c = '"' then (parseStrBody rest).map JVal.str
    else if c = '-' then
      (fromDecimal rest).map (fun n => JVal.int (-(n : Int)))
    else (fromDecimal (c :: rest)).map (fun n => JVal.int (n : Int))) = none
  rw [if_neg h1, if_neg h2]
  have hany : ((c :: rest).any fun d => (digitVal d).isNone) = true := by
    rw [List.any_cons, h3]
    rfl
  have hfd : fromDecimal (c :: rest) = none := by
    rw [fromDecimal, if_neg (by simp), if_pos hany]
  rw [hfd]
  rfl

theorem jsonParse_none_of_rejects (s : List Char)
    (h : jsonRejects s = true) : jsonParse s = none := by
  cases s with
  | nil => rfl
  | cons c rest =>
    by_cases hw : jsonWs c = true
    · have hws := hw
      simp only [jsonWs, Bool.or_eq_true, decide_eq_true_eq] at hws
      rcases hws with ((rfl | rfl) | rfl) | rfl <;>
        exact jsonParse_none_of_head _ rest (by decide) (by decide)
          (by decide) (by decide) (by decide) (by decide)
    · have hskip : skipWs (c :: rest) = c :: rest := by
        rw [skipWs, if_neg hw]
      have hnot : (!(jsonStartChar c)) = true := by
        rw [jsonRejects, hskip] at h
        exact h
      have hstart : jsonStartChar c = false := by
        cases hb : jsonStartChar c with
        | false => rfl
        | true =>
          rw [hb] at hnot
          exact absurd hnot (by decide)
      rw [jsonStartChar] at hstart
      simp only [Bool.or_eq_false_iff, decide_eq_false_iff_not] at hstart
      obtain ⟨⟨⟨⟨⟨⟨⟨hbrace, hbrack⟩, hquot⟩, hminus⟩, ht⟩, hf⟩, hn⟩, hdig⟩ := hstart
      have hdn : (digitVal c).isNone = true := by
        cases hdv : digitVal c with
        | none => rfl
        | some d =>
          rw [hdv] at hdig
          exact absurd hdig (by simp)
      exact jsonParse_none_of_head c rest hquot hminus hdn hn ht hf

theorem digitVal_digitChar {d : Nat} (h : d < 10) :
    digitVal (digitChar d) = some d := by
  interval_cases d <;> rfl

theorem toDecimal_ne_nil (n : Nat) : toDecimal n ≠ [] := by
  unfold toDecimal
  split
  · simp
  · simp

theorem toDecimal_all_digits (n : Nat) :
    ∀ c ∈ toDecimal n, (digitVal c).isSome := by
  induction n using Nat.strong_induction_on with
  | _ n ih =>
    unfold toDecimal
    split
    · intro c hc
      simp only [List.mem_singleton] at hc
      subst hc
      rw [digitVal_digitChar (by omega)]
      rfl
    · rename_i h
      intro c hc
      simp only [List.mem_append, List.mem_singleton] at hc
      rcases hc with hc | hc
      · exact ih (n / 10) (Nat.div_lt_self (by omega) (by omega)) c hc
      · subst hc
        rw [digitVal_digitChar (Nat.mod_lt _ (by omega))]
        rfl

theorem toDecimal_head_ne_zero {n : Nat} (h : 0 < n) :
    (toDecimal n).headI ≠ '0' := by
  induction n using Nat.strong_induction_on with
  | _ n ih =>
    unfold toDecimal
    split
    · rename_i hlt
      interval_cases n <;> decide
    · rename_i hge
      have h10 : n / 10 < n := Nat.div_lt_self (by omega) (by omega)
      have hpos : 0 < n / 10 := by omega
      have hne := ih (n / 10) h10 hpos
      obtain ⟨a, t, he⟩ : ∃ a t, toDecimal (n / 10) = a :: t := by
        cases h' : toDecimal (n / 10) with
        | nil => exact absurd h' (toDecimal_ne_nil _)
        | cons a t => exact ⟨a, t, rfl⟩
      rw [he] at hne ⊢
      simpa using hne

theorem foldl_toDecimal (n : Nat) :
    ∀ a, (toDecimal n).foldl (fun a c => a * 10 + (digitVal c).getD 0) a
      = a * 10 ^ (toDecimal n).length + n := by
  induction n using Nat.strong_induction_on with
  | _ n ih =>
    intro a
    unfold toDecimal
    split
    · rename_i hlt
      simp [List.foldl, digitVal_digitChar hlt]
    · rename_i hge
      have h10 : n / 10 < n := Nat.div_lt_self (by omega) (by omega)
      rw [List.foldl_append, ih (n / 10) h10 a]
      simp only [List.foldl, List.length_append, List.length_singleton]
      rw [digitVal_digitChar (Nat.mod_lt _ (by omega))]
      simp only [Option.getD_some]
      rw [pow_succ]
      ring_nf
      omega

theorem fromDecimal_toDecimal (n : Nat) :
    fromDecimal (toDecimal n) = some n := by
  unfold fromDecimal
  rw [if_neg (toDecimal_ne_nil n)]
  rw [if_neg ?hdig]
  case hdig =>
    simp only [List.any_eq_true, not_exists, not_and]
    intro c hc
    have := toDecimal_all_digits n c hc
    simp [Option.isNone_iff_eq_none]
    intro hnone
    rw [hnone] at this
    simp at this
  rw [if_neg ?hzero]
  case hzero =>
    rintro ⟨hlen, hhead⟩
    rcases Nat.eq_zero_or_pos n with h0 | hpos
    · subst h0
      simp [toDecimal] at hlen
    · exact toDecimal_head_ne_zero hpos hhead
  rw [foldl_toDecimal n 0]
  simp

theorem escapeChars_cons (c : Char) (rest : List Char) :
    escapeChars (c :: rest) =
      if c = '"' ∨ c = '\\' then '\\' :: c :: escapeChars rest
      else c :: escapeChars rest := by
  rw [escapeChars]

theorem parseStrBody_cons (c : Char) (rest : List Char) :
    parseStrBody (c :: rest) =
      if c = '\\' then
        match rest with
        | [] => none
        | e :: rest2 =>
          match unescapeChar e with
          | some c2 => (parseStrBody rest2).map (fun l => c2 :: l)
          | none => none
      else if c = '"' then
        if rest = [] then some [] else none
      else (parseStrBody rest).map (fun l => c :: l) := by
  rw [parseStrBody.eq_def]

theorem parseStrBody_escape (s : List Char) :
    parseStrBody (escapeChars s ++ ['"']) = some s := by
  induction s with
  | nil => rfl
  | cons c rest ih =>
    by_cases hc : c = '"' ∨ c = '\\'
    · rw [escapeChars_cons, if_pos hc]
      simp only [List.cons_append]
      rw [parseStrBody_cons, if_pos rfl]
      have hu : unescapeChar c = some c := by
        rcases hc with h | h <;> subst h <;> rfl
      simp only [hu, ih]
      rfl
    · push_neg at hc
      rw [escapeChars_cons, if_neg (by push_neg; exact hc)]
      simp only [List.cons_append]
      rw [parseStrBody_cons, if_neg hc.2, if_neg hc.1, ih]
      rfl

theorem jsonParse_jsonStringify (v : JVal) :
    jsonParse (jsonStringify v) = some v := by
  cases v with
  | null => decide
  | bool b => cases b <;> decide
  | int i =>
    obtain ⟨a, t, he⟩ : ∃ a t, toDecimal i.natAbs = a :: t := by
      cases h' : toDecimal i.natAbs with
      | nil => exact absurd h' (toDecimal_ne_nil _)
      | cons a t => exact ⟨a, t, rfl⟩
    have hadig : (digitVal a).isSome := by
      exact toDecimal_all_digits i.natAbs a (he ▸ List.mem_cons_self _ _)
    have ha_ne : a ≠ '"' ∧ a ≠ '-' ∧ a ≠ 'n' ∧ a ≠ 't' ∧ a ≠ 'f' := by
      refine ⟨?_, ?_, ?_, ?_, ?_⟩ <;> rintro rfl <;> simp [digitVal] at hadig
    by_cases hneg : i < 0
    · have hstr : jsonStringify (.int i) = '-' :: toDecimal i.natAbs := by
        simp [jsonStringify, hneg]
      rw [hstr, he]
      unfold jsonParse
      rw [if_neg (by intro h; injection h with h1 _; exact absurd h1 (by decide)),
        if_neg (by intro h; injection h with h1 _; exact absurd h1 (by decide)),
        if_neg (by intro h; injection h with h1 _; exact absurd h1 (by decide))]
      show (if '-' = '"' then (parseStrBody (a :: t)).map JVal.str
        else if '-' = '-' then
          (fromDecimal (a :: t)).map (fun n => JVal.int (-(n : Int)))
        else (fromDecimal ('-' :: a :: t)).map (fun n => JVal.int (n : Int)))
          = some (.int i)
      rw [if_neg (by decide), if_pos rfl, ← he, fromDecimal_toDecimal]
      show some (JVal.int (-(i.natAbs : Int))) = some (.int i)
      have hcast : (-(i.natAbs : Int)) = i := by omega
      rw [hcast]
    · have hstr : jsonStringify (.int i) = toDecimal i.natAbs := by
        simp [jsonStringify, hneg]
      rw [hstr, he]
      unfold jsonParse
      rw [if_neg (by intro h; injection h with h1 _; exact absurd h1 ha_ne.2.2.1),
        if_neg (by intro h; injection h with h1 _; exact absurd h1 ha_ne.2.2.2.1),
        if_neg (by intro h; injection h with h1 _; exact absurd h1 ha_ne.2.2.2.2)]
      show (if a = '"' then (parseStrBody t).map JVal.str
        else if a = '-' then
          (fromDecimal t).map (fun n => JVal.int (-(n : Int)))
        else (fromDecimal (a :: t)).map (fun n => JVal.int (n : Int)))
          = some (.int i)
      rw [if_neg ha_ne.1, if_neg ha_ne.2.1, ← he, fromDecimal_toDecimal]
      show some (JVal.int ((i.natAbs : Int))) = some (.int i)
      have hcast : ((i.natAbs : Int)) = i := by omega
      rw [hcast]
  | str s =>
    show jsonParse ('"' :: (escapeChars s ++ ['"'])) = some (.str s)
    unfold jsonParse
    rw [if_neg (by intro h; injection h with h1 _; exact absurd h1 (by decide)),
      if_neg (by intro h; injection h with h1 _; exact absurd h1 (by decide)),
      if_neg (by intro h; injection h with h1 _; exact absurd h1 (by decide))]
    show (if '"' = '"' then (parseStrBody (escapeChars s ++ ['"'])).map JVal.str
      else _) = _
    rw [if_pos rfl, parseStrBody_escape]
    rfl

/-! ## Encryption Engine (`lib/processors/DataEncryptor.js`)

`DataEncryptor.encrypt` (lines 24–70) serialises non-string values with
`JSON.stringify`, derives a per-operation key with
`pbkdf2Sync(masterKey, salt, 100000, 32, 'sha256')` and encrypts with
AES-256-GCM under a fresh `iv`; `DataEncryptor.decrypt` (lines 75–117)
re-derives the key, decrypts with authentication, then tries
`JSON.parse` on the plaintext, falling back to the raw string.

The two cryptographic primitives live in Node's `crypto` library, outside
this repository; they are modelled as an idealised AEAD:

* `pbkdf2` is an injective pairing of master key and salt (a key
  derivation function keyed by both inputs);
* the cipher is an XOR pad determined by (key, iv) — the CTR-mode shape
  underlying GCM;
* the authentication tag is an injective function of
  (key, iv, ciphertext), the perfect-integrity idealisation of the GCM
  tag: verification succeeds exactly on the unmodified triple. -/

/-- Injective encoding of a ciphertext (a byte list) into `Nat`, used by
the idealised authentication tag. -/
def encodeListNat : List Nat → Nat
  | [] => 0
  | a :: l => Nat.pair a (encodeListNat l) + 1

theorem encodeListNat_inj : ∀ {l1 l2 : List Nat},
    encodeListNat l1 = encodeListNat l2 → l1 = l2 := by
  intro l1
  induction l1 with
  | nil =>
    intro l2 h
    cases l2 with
    | nil => rfl
    | cons b t => simp [encodeListNat] at h
  | cons a t ih =>
    intro l2 h
    cases l2 with
    | nil => simp [encodeListNat] at h
    | cons b t2 =>
      simp only [encodeListNat, Nat.add_right_cancel_iff] at h
      rw [Nat.pair_eq_pair] at h
      rw [h.1, ih h.2]

/-- Model of `crypto.pbkdf2Sync(masterKey, salt, 100000, 32, 'sha256')`:
an injective key-derivation from master key and salt. -/
def pbkdf2 (master salt : Nat) : Nat := Nat.pair master salt

/-- The XOR pad determined by derived key and iv. -/
def keystream (key iv : Nat) : Nat := Nat.pair key iv

/-- Idealised GCM encryption: XOR the utf-8 code points with the pad. -/
def gcmEncrypt (key iv : Nat) (pt : List Char) : List Nat :=
  pt.map (fun c => c.toNat ^^^ keystream key iv)

/-- Idealised GCM authentication tag: injective in key, iv and
ciphertext. -/
def gcmTag (key iv : Nat) (ct : List Nat) : Nat :=
  Nat.pair key (Nat.pair iv (encodeListNat ct))

/-- Idealised GCM decryption: verify the tag against (key, iv,
ciphertext), then invert the XOR pad; `none` on authentication failure. -/
def gcmDecrypt (key iv tag : Nat) (ct : List Nat) : Option (List Char) :=
  if tag = gcmTag key iv ct then
    some (ct.map (fun n => Char.ofNat (n ^^^ keystream key iv)))
  else none

theorem gcmDecrypt_gcmEncrypt (key iv : Nat) (pt : List Char) :
    gcmDecrypt key iv (gcmTag key iv (gcmEncrypt key iv pt))
      (gcmEncrypt key iv pt) = some pt := by
  unfold gcmDecrypt
  rw [if_pos rfl, gcmEncrypt, List.map_map]
  congr 1
  have : ∀ c : Char, Char.ofNat ((c.toNat ^^^ keystream key iv) ^^^ keystream key iv) = c := by
    intro c
    rw [Nat.xor_assoc, Nat.xor_self, Nat.xor_zero, Char.ofNat_toNat]
  calc pt.map ((fun n => Char.ofNat (n ^^^ keystream key iv)) ∘
        (fun c => c.toNat ^^^ keystream key iv))
      = pt.map id := List.map_congr_left (fun c _ => this c)
    _ = pt := List.map_id pt

/-- The structured encrypted value built by `DataEncryptor.encrypt`
(lines 54–64).  The `_encrypted: true` marker is the `FieldVal.enc`
constructor; `encryptedAt` (a clock read never consulted by `decrypt`)
is omitted from the model. -/
structure EncField where
  version : String
  algorithm : String
  data : List Nat
  iv : Nat
  salt : Nat
  authTag : Nat
  field : String
deriving DecidableEq, Repr

/-- A record field holds either a plain JS value or an encrypted-field
object. -/
inductive FieldVal where
  | plain (v : JVal)
  | enc (e : EncField)
deriving DecidableEq, Repr

/-- `DataEncryptor.isEncrypted` (lines 122–126): a truthy object whose
`_encrypted` marker is `true` — in the model, exactly the `enc`
constructor. -/
def isEncrypted : FieldVal → Bool
  | .enc _ => true
  | .plain _ => false

/-- JS truthiness of a field value (every object is truthy). -/
def truthyF : FieldVal → Bool
  | .plain v => truthy v
  | .enc _ => true

/-- The serialisation step of `DataEncryptor.encrypt` (line 28): strings
pass through, every other value goes through `JSON.stringify`. -/
def serializeVal : JVal → List Char
  | .str s => s
  | v => jsonStringify v

/-- `DataEncryptor.encrypt(value, fieldName)` (lines 24–70), with the
randomness (`iv`, `salt`) passed explicitly.  `null`/`undefined` are
returned unchanged; otherwise the value is serialised (strings as-is,
other values via `JSON.stringify`) and encrypted.  The catch branch
(line 66–69, return the original on failure) is unreachable in the
model, whose cipher is total. -/
def encrypt (master : Nat) (v : JVal) (fieldName : String) (iv salt : Nat) :
    FieldVal :=
  if v = .null then .plain v
  else
    let stringValue : List Char := serializeVal v
    let key := pbkdf2 master salt
    let ct := gcmEncrypt key iv stringValue
    .enc {
      version := "1.0"
      algorithm := "aes-256-gcm"
      data := ct
      iv := iv
      salt := salt
      authTag := gcmTag key iv ct
      field := fieldName }

/-- The post-decryption step of `DataEncryptor.decrypt` (lines 107–111):
try `JSON.parse`, otherwise return the plaintext as a string. -/
def deserialize (s : List Char) : JVal :=
  match jsonParse s with
  | some v => v
  | none => .str s

/-- `DataEncryptor.decrypt(encryptedData)` (lines 75–117): non-encrypted
values are returned as-is; for encrypted values the key is re-derived
from the stored salt and GCM decryption is attempted, raising
(`Except.error`) on failure and otherwise deserialising the plaintext. -/
def decrypt (master : Nat) (fv : FieldVal) : Except String JVal :=
  match fv with
  | .plain v => .ok v
  | .enc e =>
    let key := pbkdf2 master e.salt
    match gcmDecrypt key e.iv e.authTag e.data with
    | some pt => .ok (deserialize pt)
    | none => .error "Failed to decrypt field"

theorem decrypt_encrypt (master iv salt : Nat) (fieldName : String)
    (v : JVal) (hv : v ≠ .null) :
    decrypt master (encrypt master v fieldName iv salt)
      = .ok (deserialize (serializeVal v)) := by
  rw [encrypt, if_neg hv]
  show (match gcmDecrypt (pbkdf2 master salt) iv
      (gcmTag (pbkdf2 master salt) iv (gcmEncrypt (pbkdf2 master salt) iv (serializeVal v)))
      (gcmEncrypt (pbkdf2 master salt) iv (serializeVal v)) with
    | some pt => Except.ok (deserialize pt)
    | none => Except.error "Failed to decrypt field")
      = Except.ok (deserialize (serializeVal v))
  rw [gcmDecrypt_gcmEncrypt]

theorem gcmTag_inj {k i : Nat} {c : List Nat} {k' i' : Nat} {c' : List Nat}
    (h : gcmTag k i c = gcmTag k' i' c') : k = k' ∧ i = i' ∧ c = c' := by
  unfold gcmTag at h
  rw [Nat.pair_eq_pair] at h
  obtain ⟨hk, h2⟩ := h
  rw [Nat.pair_eq_pair] at h2
  exact ⟨hk, h2.1, encodeListNat_inj h2.2⟩

/-! ## Field maps

Records are JS objects; the engine-visible part of a record's own
enumerable data fields is modelled as an ordered association list.
`lookupField` is property read (first match; JS objects have unique
keys, which the model does not need to assume), `setField` is property
assignment. -/

/-- JS property read `data[key]` (`undefined` as `none`). -/
def lookupField : List (String × FieldVal) → String → Option FieldVal
  | [], _ => none
  | (k, v) :: rest, key => if k = key then some v else lookupField rest key

/-- JS property assignment `data[key] = v` (replaces the existing entry
in place, appends for a fresh key). -/
def setField : List (String × FieldVal) → String → FieldVal →
    List (String × FieldVal)
  | [], key, v => [(key, v)]
  | (k, w) :: rest, key, v =>
    if k = key then (key, v) :: rest else (k, w) :: setField rest key v

/-- JS truthiness of a property read. -/
def truthyO : Option FieldVal → Bool
  | none => false
  | some v => truthyF v

/-- `DataEncryptor.autoDecryptSensitiveFields(data)` (lines 148–163):
spread-copy the record, and for every field holding an encrypted value
try to decrypt it, keeping the encrypted value when decryption throws
(the `catch` on lines 155–158); other fields pass through. -/
def autoDecryptSensitiveFields (master : Nat)
    (fields : List (String × FieldVal)) : List (String × FieldVal) :=
  fields.map (fun kv =>
    if isEncrypted kv.2 then
      match decrypt master kv.2 with
      | .ok v => (kv.1, FieldVal.plain v)
      | .error _ => kv
    else kv)

/-! ## Claims C1, C2, C10 — the Encryption Engine -/

/-- C1, counterexample: the round-trip law fails on strings that are
themselves parseable as JSON.  Encrypting the *string* `"123"` and
decrypting it yields the *number* `123` (`decrypt` runs `JSON.parse` on
the recovered plaintext, line 108), which differs from the original in
type. -/
theorem c1_round_trip_counterexample :
    decrypt 0 (encrypt 0 (.str ['1', '2', '3']) "email" 0 0)
        = .ok (.int 123) ∧ JVal.int 123 ≠ JVal.str ['1', '2', '3'] := by
  constructor
  · rfl
  · decide

/-- C1, amended: for every master key, iv, salt and field name, the
round trip `decrypt (encrypt v f)` returns exactly the original value
`v` — content and type — for every non-string value, and for every
string that `JSON.parse` rejects; a string that `JSON.parse` accepts
comes back as the parsed value instead.  The string side is stated with
`jsonRejects` — after insignificant whitespace the string is empty or
begins with a character that cannot start any JSON text — a syntactic
class on which the builtin parser certainly throws, so the theorem
claims nothing about strings (floats, arrays, objects, padded numbers)
that the builtin parses but lie outside the modelled value universe. -/
theorem c1_round_trip (master iv salt : Nat) (fieldName : String) (v : JVal)
    (h : (∀ s, v ≠ JVal.str s) ∨ ∃ s, v = JVal.str s ∧ jsonRejects s = true) :
    decrypt master (encrypt master v fieldName iv salt) = .ok v := by
  rcases h with h | ⟨s, rfl, hrej⟩
  · cases v with
    | null => rfl
    | str s => exact absurd rfl (h s)
    | bool b =>
      rw [decrypt_encrypt _ _ _ _ _ (by intro hc; cases hc)]
      show Except.ok (deserialize (jsonStringify (JVal.bool b))) = _
      rw [deserialize, jsonParse_jsonStringify]
    | int i =>
      rw [decrypt_encrypt _ _ _ _ _ (by intro hc; cases hc)]
      show Except.ok (deserialize (jsonStringify (JVal.int i))) = _
      rw [deserialize, jsonParse_jsonStringify]
  · have hp : jsonParse s = none := jsonParse_none_of_rejects s hrej
    rw [decrypt_encrypt _ _ _ _ _ (by intro hc; cases hc)]
    show Except.ok (deserialize s) = _
    rw [deserialize, hp]

/-- Witness for `c1_round_trip` at a concrete string input that no
JSON parser accepts (`"hi!"` starts with `'h'`). -/
theorem c1_round_trip_witness :
    ((∀ s, JVal.str ['h', 'i', '!'] ≠ JVal.str s) ∨
      ∃ s, JVal.str ['h', 'i', '!'] = JVal.str s ∧ jsonRejects s = true) ∧
    decrypt 7 (encrypt 7 (.str ['h', 'i', '!']) "note" 3 5)
      = .ok (.str ['h', 'i', '!']) :=
  ⟨Or.inr ⟨['h', 'i', '!'], rfl, by decide⟩,
    c1_round_trip 7 3 5 "note" (.str ['h', 'i', '!'])
      (Or.inr ⟨['h', 'i', '!'], rfl, by decide⟩)⟩

/-- C2: mutating any one of ciphertext (`data`), `iv`, `salt` or
`authTag` of an `EncryptedField` produced by `encrypt` — leaving the
other three unchanged — makes `decrypt` under the same master key raise
a decryption error; in particular no plaintext, guessed or partial, is
returned on such inputs. -/
theorem c2_tamper_detection (master iv salt : Nat) (fieldName : String)
    (v : JVal) (e e' : EncField)
    (henc : encrypt master v fieldName iv salt = .enc e)
    (hmut :
      (e'.data ≠ e.data ∧ e'.iv = e.iv ∧ e'.salt = e.salt ∧ e'.authTag = e.authTag) ∨
      (e'.data = e.data ∧ e'.iv ≠ e.iv ∧ e'.salt = e.salt ∧ e'.authTag = e.authTag) ∨
      (e'.data = e.data ∧ e'.iv = e.iv ∧ e'.salt ≠ e.salt ∧ e'.authTag = e.authTag) ∨
      (e'.data = e.data ∧ e'.iv = e.iv ∧ e'.salt = e.salt ∧ e'.authTag ≠ e.authTag)) :
    decrypt master (.enc e') = .error "Failed to decrypt field" := by
  have hv : v ≠ .null := by
    intro hv
    rw [encrypt, if_pos hv] at henc
    cases henc
  rw [encrypt, if_neg hv] at henc
  injection henc with he
  have hdata : e.data = gcmEncrypt (pbkdf2 master salt) iv (serializeVal v) := by
    rw [← he]
  have hiv : e.iv = iv := by rw [← he]
  have hsalt : e.salt = salt := by rw [← he]
  have htag : e.authTag = gcmTag (pbkdf2 master e.salt) e.iv e.data := by
    rw [← he]
  have hfail : e'.authTag ≠ gcmTag (pbkdf2 master e'.salt) e'.iv e'.data := by
    rcases hmut with ⟨h1, h2, h3, h4⟩ | ⟨h1, h2, h3, h4⟩ |
      ⟨h1, h2, h3, h4⟩ | ⟨h1, h2, h3, h4⟩
    · rw [h2, h3, h4, htag]
      intro hcon
      exact h1 (gcmTag_inj hcon).2.2.symm
    · rw [h1, h3, h4, htag]
      intro hcon
      exact h2 (gcmTag_inj hcon).2.1.symm
    · rw [h1, h2, h4, htag]
      intro hcon
      have := (gcmTag_inj hcon).1
      rw [pbkdf2, pbkdf2, Nat.pair_eq_pair] at this
      exact h3 this.2.symm
    · rw [h1, h2, h3, ← htag]
      exact h4
  show (match gcmDecrypt (pbkdf2 master e'.salt) e'.iv e'.authTag e'.data with
    | some pt => Except.ok (deserialize pt)
    | none => Except.error "Failed to decrypt field")
      = Except.error "Failed to decrypt field"
  rw [gcmDecrypt, if_neg hfail]

/-- A concrete encrypted field (the output of `encrypt` at master key 0,
iv 0, salt 0 on the string `"a"`) used by the `c2_tamper_detection`
witness. -/
def c2exEnc : EncField :=
  { version := "1.0"
    algorithm := "aes-256-gcm"
    data := gcmEncrypt (pbkdf2 0 0) 0 ['a']
    iv := 0
    salt := 0
    authTag := gcmTag (pbkdf2 0 0) 0 (gcmEncrypt (pbkdf2 0 0) 0 ['a'])
    field := "f" }

/-- `c2exEnc` with its authentication tag mutated. -/
def c2exEnc' : EncField := { c2exEnc with authTag := c2exEnc.authTag + 1 }

/-- Witness for `c2_tamper_detection`: the tag-mutated concrete field is
rejected. -/
theorem c2_tamper_detection_witness :
    encrypt 0 (.str ['a']) "f" 0 0 = .enc c2exEnc ∧
    decrypt 0 (.enc c2exEnc') = .error "Failed to decrypt field" :=
  ⟨rfl, c2_tamper_detection 0 0 0 "f" (.str ['a']) c2exEnc c2exEnc' rfl
    (Or.inr (Or.inr (Or.inr ⟨rfl, rfl, rfl, by
      show c2exEnc.authTag + 1 ≠ c2exEnc.authTag
      omega⟩)))⟩

/-- C10: `autoDecryptSensitiveFields` is a total function on records —
the decryption error that `decrypt` raises on a failing field is caught,
and that field keeps its encrypted value; every field whose decryption
succeeds is replaced by the recovered plaintext, and non-encrypted
fields pass through untouched. -/
theorem c10_autoDecrypt_never_raises (master : Nat)
    (fields : List (String × FieldVal)) (key : String) :
    lookupField (autoDecryptSensitiveFields master fields) key =
      match lookupField fields key with
      | some (.enc e) =>
        match decrypt master (.enc e) with
        | .ok v => some (.plain v)
        | .error _ => some (.enc e)
      | o => o := by
  induction fields with
  | nil => rfl
  | cons kv rest ih =>
    obtain ⟨k, v⟩ := kv
    by_cases hk : k = key
    · subst hk
      cases v with
      | plain w =>
        show lookupField ((if isEncrypted (FieldVal.plain w) then _ else (k, .plain w)) ::
          autoDecryptSensitiveFields master rest) k = _
        rw [if_neg (by simp [isEncrypted])]
        show (if k = k then some (FieldVal.plain w) else _) = _
        rw [if_pos rfl]
        show some (FieldVal.plain w) =
          (match (if k = k then some (FieldVal.plain w) else lookupField rest k) with
          | some (.enc e) =>
            match decrypt master (FieldVal.enc e) with
            | .ok v => some (FieldVal.plain v)
            | .error _ => some (.enc e)
          | o => o)
        rw [if_pos rfl]
      | enc e =>
        show lookupField ((if isEncrypted (FieldVal.enc e) then
            match decrypt master (FieldVal.enc e) with
            | .ok w => (k, FieldVal.plain w)
            | .error _ => (k, FieldVal.enc e)
          else (k, .enc e)) :: autoDecryptSensitiveFields master rest) k = _
        rw [if_pos (by simp [isEncrypted])]
        cases hd : decrypt master (FieldVal.enc e) with
        | ok w =>
          show (if k = k then some (FieldVal.plain w) else _) = _
          rw [if_pos rfl]
          show _ = (match lookupField ((k, FieldVal.enc e) :: rest) k with
            | some (.enc e) =>
              match decrypt master (FieldVal.enc e) with
              | .ok v => some (FieldVal.plain v)
              | .error _ => some (.enc e)
            | o => o)
          show some (FieldVal.plain w) = (match (if k = k then some (FieldVal.enc e) else lookupField rest k) with
            | some (.enc e) =>
              match decrypt master (FieldVal.enc e) with
              | .ok v => some (FieldVal.plain v)
              | .error _ => some (.enc e)
            | o => o)
          rw [if_pos rfl]
          show some (FieldVal.plain w) = (match decrypt master (FieldVal.enc e) with
            | .ok v => some (FieldVal.plain v)
            | .error _ => some (FieldVal.enc e))
          rw [hd]
        | error msg =>
          show (if k = k then some (FieldVal.enc e) else _) = _
          rw [if_pos rfl]
          show some (FieldVal.enc e) = (match (if k = k then some (FieldVal.enc e) else lookupField rest k) with
            | some (.enc e) =>
              match decrypt master (FieldVal.enc e) with
              | .ok v => some (FieldVal.plain v)
              | .error _ => some (.enc e)
            | o => o)
          rw [if_pos rfl]
          show some (FieldVal.enc e) = (match decrypt master (FieldVal.enc e) with
            | .ok v => some (FieldVal.plain v)
            | .error _ => some (FieldVal.enc e))
          rw [hd]
    · have hhead : ∀ fv : FieldVal, lookupField ((k, fv) ::
          autoDecryptSensitiveFields master rest) key
            = lookupField (autoDecryptSensitiveFields master rest) key := by
        intro fv
        show (if k = key then some fv else _) = _
        rw [if_neg hk]
      cases v with
      | plain w =>
        show lookupField ((if isEncrypted (FieldVal.plain w) then _ else (k, .plain w)) ::
          autoDecryptSensitiveFields master rest) key = _
        rw [if_neg (by simp [isEncrypted]), hhead, ih]
        show _ = (match (if k = key then some (FieldVal.plain w) else lookupField rest key) with
          | some (.enc e) =>
            match decrypt master (FieldVal.enc e) with
            | .ok v => some (FieldVal.plain v)
            | .error _ => some (.enc e)
          | o => o)
        rw [if_neg hk]
      | enc e =>
        show lookupField ((if isEncrypted (FieldVal.enc e) then
            match decrypt master (FieldVal.enc e) with
            | .ok w => (k, FieldVal.plain w)
            | .error _ => (k, FieldVal.enc e)
          else (k, .enc e)) :: autoDecryptSensitiveFields master rest) key = _
        rw [if_pos (by simp [isEncrypted])]
        cases hd : decrypt master (FieldVal.enc e) with
        | ok w =>
          rw [hhead, ih]
          show _ = (match (if k = key then some (FieldVal.enc e) else lookupField rest key) with
            | some (.enc e) =>
              match decrypt master (FieldVal.enc e) with
              | .ok v => some (FieldVal.plain v)
              | .error _ => some (.enc e)
            | o => o)
          rw [if_neg hk]
        | error msg =>
          rw [hhead, ih]
          show _ = (match (if k = key then some (FieldVal.enc e) else lookupField rest key) with
            | some (.enc e) =>
              match decrypt master (FieldVal.enc e) with
              | .ok v => some (FieldVal.plain v)
              | .error _ => some (.enc e)
            | o => o)
          rw [if_neg hk]

/-! ## Consent Ledger (`lib/processors/ConsentManager.js`) and records

The record metadata blocks written by the Obligation Resolver
(`RuleEngine.applyLaw`) are declared first so that the record type can
carry them. -/

/-- The `_deletionMetadata` block attached by the GDPR pass
(`RuleEngine.applyLaw`, lines 100–108). -/
structure DeletionMeta where
  canBeDeleted : Bool
  retentionPeriod : Nat
  deletionProcedure : String
  consentWithdrawalImpact : String
deriving DecidableEq, Repr

/-- The `_ccpaRights` block attached by the CCPA pass
(`RuleEngine.applyLaw`, lines 113–119). -/
structure CcpaRights where
  optOutOfSale : Bool
  verified : Bool
  lastUpdated : String
  method : String
deriving DecidableEq, Repr

/-- The granular consent preference flags (`ConsentManager.recordConsent`,
lines 216–223). -/
structure Preferences where
  necessary : Bool
  marketing : Bool
  analytics : Bool
  personalization : Bool
  thirdPartySharing : Bool
  internationalTransfer : Bool
deriving DecidableEq, Repr

/-- A consent record (`ConsentManager.recordConsent`, lines 201–234).
`recordedAt` is an ISO timestamp string (JS truthiness: non-empty).
`withdrawn` is set by `withdrawConsent('all')` and absent (falsy) until
then.  `lastWithdrawal` is omitted: it would make the type mutually
recursive with the withdrawal record and is never read by any modelled
code path. -/
structure ConsentRecord where
  version : String
  recordedAt : String
  ipAddress : Option String
  userAgent : Option String
  lawfulBasis : String
  purpose : String
  specific : Bool
  informed : Bool
  unambiguous : Bool
  preferences : Preferences
  regulation : String
  article : String
  requiresExplicitAction : Bool
  canWithdraw : Bool
  withdrawalMethod : String
  withdrawalRecorded : Bool
  withdrawn : Bool
deriving DecidableEq, Repr

/-- A withdrawal ledger entry (`ConsentManager.withdrawConsent`, lines
259–265). -/
structure WithdrawalRecord where
  withdrawnAt : String
  withdrawnConsentType : String
  ipAddress : Option String
  userAgent : Option String
  previousConsent : ConsentRecord
deriving DecidableEq, Repr

/-- The `_consent` block of a record: a current consent, the append-only
history, and the withdrawal ledger (absent ledger and empty ledger are
identified, as every reader defaults it to `[]`). -/
structure ConsentState where
  current : ConsentRecord
  history : List ConsentRecord
  withdrawals : List WithdrawalRecord
deriving DecidableEq, Repr

/-- A record: the caller's enumerable data fields plus the reserved
engine-written blocks (`_consent`, `_deletionMetadata`, `_ccpaRights`).
The non-enumerable `_compliance` annotation is not part of the record
value (it is invisible to spreads and `Object.entries`); the model
returns that metadata alongside the record, see `ProcessResult`. -/
structure Rec where
  fields : List (String × FieldVal) := []
  consent : Option ConsentState := none
  deletionMetadata : Option DeletionMeta := none
  ccpaRights : Option CcpaRights := none
deriving DecidableEq, Repr

/-- The `consentOptions` argument of `recordConsent`; `none` models an
absent (undefined) property. -/
structure ConsentOptions where
  purpose : Option String := none
  marketing : Option Bool := none
  analytics : Option Bool := none
  personalization : Option Bool := none
  thirdPartySharing : Option Bool := none
  internationalTransfer : Option Bool := none
  specific : Option Bool := none
  informed : Option Bool := none
  unambiguous : Option Bool := none
deriving DecidableEq, Repr

/-- The `context` argument of the consent operations. -/
structure CallCtx where
  ipAddress : Option String := none
  userAgent : Option String := none
deriving DecidableEq, Repr

/-- JS `a || d` for an optional string `a` (empty strings are falsy). -/
def jsOrStr (o : Option String) (d : String) : String :=
  match o with
  | some s => if s = "" then d else s
  | none => d

/-- JS `x || false` on an optional boolean. -/
def jsTruthyB (o : Option Bool) : Bool := o.getD false

/-- JS `x !== false` on an optional boolean. -/
def jsNeqFalse (o : Option Bool) : Bool := o ≠ some false

/-- JS `x !== undefined ? x : true` on an optional boolean. -/
def jsDefTrue (o : Option Bool) : Bool := o.getD true

/-- The consent record built by `ConsentManager.recordConsent` (lines
201–234), with the clock read passed as `now`. -/
def mkConsentRecord (opts : ConsentOptions) (ctx : CallCtx) (now : String) :
    ConsentRecord :=
  { version := "1.0"
    recordedAt := now
    ipAddress := ctx.ipAddress
    userAgent := ctx.userAgent
    lawfulBasis := "consent"
    purpose := jsOrStr opts.purpose "general_processing"
    specific := jsNeqFalse opts.specific
    informed := jsNeqFalse opts.informed
    unambiguous := jsNeqFalse opts.unambiguous
    preferences :=
      { necessary := true
        marketing := jsTruthyB opts.marketing
        analytics := jsDefTrue opts.analytics
        personalization := jsTruthyB opts.personalization
        thirdPartySharing := jsTruthyB opts.thirdPartySharing
        internationalTransfer := jsTruthyB opts.internationalTransfer }
    regulation := "GDPR"
    article := "Article_7"
    requiresExplicitAction := true
    canWithdraw := true
    withdrawalMethod := "same_as_consent_method"
    withdrawalRecorded := false
    withdrawn := false }

/-- `ConsentManager.recordConsent(userData, consentOptions, context)`
(lines 200–249): build a fresh consent record; if the record has no
`_consent` block install it with empty history, otherwise push the
current consent onto the history and replace it. -/
def recordConsent (r : Rec) (opts : ConsentOptions) (ctx : CallCtx)
    (now : String) : Rec :=
  let consentRecord := mkConsentRecord opts ctx now
  match r.consent with
  | none =>
    let cs' : ConsentState :=
      { current := consentRecord, history := [], withdrawals := [] }
    { r with consent := some cs' }
  | some cs =>
    let cs' : ConsentState :=
      { cs with history := cs.history ++ [cs.current],
                current := consentRecord }
    { r with consent := some cs' }

/-- `preferences[consentType] = false` (line 281) for the six known
preference keys; an unknown key creates an ad-hoc property that no
modelled reader ever consults, modelled as a no-op. -/
def setPref (p : Preferences) (consentType : String) (b : Bool) :
    Preferences :=
  if consentType = "necessary" then { p with necessary := b }
  else if consentType = "marketing" then { p with marketing := b }
  else if consentType = "analytics" then { p with analytics := b }
  else if consentType = "personalization" then { p with personalization := b }
  else if consentType = "thirdPartySharing" then { p with thirdPartySharing := b }
  else if consentType = "internationalTransfer" then { p with internationalTransfer := b }
  else p

/-- The all-withdrawn preference object assigned by
`withdrawConsent('all')` (lines 270–277). -/
def allWithdrawnPrefs : Preferences :=
  { necessary := true
    marketing := false
    analytics := false
    personalization := false
    thirdPartySharing := false
    internationalTransfer := false }

/-- `ConsentManager.withdrawConsent(userData, consentType, context)`
(lines 254–295).  Throws when the record has no `_consent` block.

Aliasing note, traced from the source: `previousConsent: {...current}`
(line 264) is a *shallow* copy — scalar fields are copied by value, but
the `preferences` field copies the object reference.  For a
specific-type withdrawal, line 281 then mutates that shared preferences
object in place, so by the time the withdrawal entry is pushed its
snapshot shows the *post*-withdrawal flags; the model therefore stores
the updated preferences in `previousConsent`.  In the `'all'` branch,
line 270 assigns a *fresh* object to `current.preferences`, so there the
snapshot keeps the pre-withdrawal flags.  Scalar fields mutated after
the copy (`withdrawalRecorded`, `withdrawn`) keep their old values in
the snapshot in both branches. -/
def withdrawConsent (r : Rec) (consentType : String) (ctx : CallCtx)
    (now : String) : Except String Rec :=
  match r.consent with
  | none => .error "No consent records found for user"
  | some cs =>
    if consentType = "all" then
      let current' := { cs.current with
        preferences := allWithdrawnPrefs
        withdrawn := true
        withdrawalRecorded := true }
      let withdrawalRecord : WithdrawalRecord :=
        { withdrawnAt := now
          withdrawnConsentType := consentType
          ipAddress := ctx.ipAddress
          userAgent := ctx.userAgent
          previousConsent := cs.current }
      let cs' : ConsentState :=
        { cs with current := current'
                  withdrawals := cs.withdrawals ++ [withdrawalRecord] }
      .ok { r with consent := some cs' }
    else
      let newPrefs := setPref cs.current.preferences consentType false
      let current' := { cs.current with
        preferences := newPrefs
        withdrawalRecorded := true }
      let withdrawalRecord : WithdrawalRecord :=
        { withdrawnAt := now
          withdrawnConsentType := consentType
          ipAddress := ctx.ipAddress
          userAgent := ctx.userAgent
          previousConsent := { cs.current with preferences := newPrefs } }
      let cs' : ConsentState :=
        { cs with current := current'
                  withdrawals := cs.withdrawals ++ [withdrawalRecord] }
      .ok { r with consent := some cs' }

/-- `ConsentManager.isGdprCompliantConsent(consent)` (lines 341–352). -/
def isGdprCompliantConsent (c : ConsentRecord) : Bool :=
  c.specific && c.informed && c.unambiguous &&
    (c.recordedAt ≠ "") && (c.purpose ≠ "") && c.canWithdraw

/-- The default branch of `hasValidConsent` (line 334):
`consent.preferences[processingType] === true` — `false` for unknown
keys (`undefined === true`). -/
def prefLookup (p : Preferences) (key : String) : Bool :=
  if key = "necessary" then p.necessary
  else if key = "marketing" then p.marketing
  else if key = "analytics" then p.analytics
  else if key = "personalization" then p.personalization
  else if key = "thirdPartySharing" then p.thirdPartySharing
  else if key = "internationalTransfer" then p.internationalTransfer
  else false

/-- `ConsentManager.hasValidConsent(userData, processingType)` (lines
300–336): `false` without a current consent, `false` when the current
consent is not GDPR-compliant, then the processing-type switch (the
model's consent block always carries a `current`, so the
`!userData._consent.current` half of the line 301 guard is subsumed). -/
def hasValidConsent (r : Rec) (processingType : String) : Bool :=
  match r.consent with
  | none => false
  | some cs =>
    if ¬ isGdprCompliantConsent cs.current then false
    else if processingType = "necessary" then true
    else if processingType = "marketing" then cs.current.preferences.marketing
    else if processingType = "analytics" then cs.current.preferences.analytics
    else if processingType = "personalization" then
      cs.current.preferences.personalization
    else if processingType = "third_party_sharing" then
      cs.current.preferences.thirdPartySharing
    else if processingType = "international_transfer" then
      cs.current.preferences.internationalTransfer
    else prefLookup cs.current.preferences processingType

/-! ## Claims C6, C8, C9 — the Consent Ledger -/

/-- A compliant current consent with `marketing = true`, as produced by
`recordConsent` with `marketing: true` at time `"t0"`. -/
def c6CS : ConsentState :=
  { current := mkConsentRecord { marketing := some true } {} "t0"
    history := []
    withdrawals := [] }

/-- A record carrying `c6CS` as its `_consent` block. -/
def c6Rec : Rec := { consent := some c6CS }

/-- C6, counterexample: before the withdrawal the current consent has
`preferences.marketing = true`, yet the single withdrawal entry appended
by `withdrawConsent(record, "marketing", ctx)` reports
`previousConsent.preferences.marketing = false` — the snapshot does not
capture the preference flags as they were immediately before the
withdrawal (the shallow copy on line 264 shares the `preferences` object
that line 281 then mutates). -/
theorem c6_snapshot_counterexample :
    c6Rec.consent.map (fun cs => cs.current.preferences.marketing)
        = some true ∧
    (withdrawConsent c6Rec "marketing" {} "t1").toOption.map
      (fun r' => r'.consent.map (fun cs =>
        cs.withdrawals.map (fun w => w.previousConsent.preferences.marketing)))
      = some (some [false]) := by
  constructor
  · rfl
  · rfl

/-- C6, amended: for every record with a current consent,
`withdrawConsent(record, "marketing", ctx)` sets
`preferences.marketing = false`, leaves `preferences.analytics`
unchanged, and appends exactly one entry to `withdrawals`; that entry
snapshots the scalar consent fields as they were before the withdrawal,
but its preference flags are the *post*-withdrawal preferences (the
snapshot shares the mutated preferences object). -/
theorem setPref_marketing (p : Preferences) :
    setPref p "marketing" false = { p with marketing := false } := by
  rw [setPref, if_neg (by decide), if_pos rfl]

theorem c6_withdraw_marketing (r : Rec) (cs : ConsentState) (ctx : CallCtx)
    (now : String) (h : r.consent = some cs) :
    ∃ r' cs', withdrawConsent r "marketing" ctx now = .ok r' ∧
      r'.consent = some cs' ∧
      cs'.current.preferences.marketing = false ∧
      cs'.current.preferences.analytics = cs.current.preferences.analytics ∧
      cs'.withdrawals = cs.withdrawals ++
        [{ withdrawnAt := now
           withdrawnConsentType := "marketing"
           ipAddress := ctx.ipAddress
           userAgent := ctx.userAgent
           previousConsent :=
             { cs.current with preferences := cs'.current.preferences } }] := by
  have hw : withdrawConsent r "marketing" ctx now =
      .ok { r with
            consent := some ({ cs with
              current := { cs.current with
                preferences := setPref cs.current.preferences "marketing" false
                withdrawalRecorded := true }
              withdrawals := cs.withdrawals ++
                [{ withdrawnAt := now
                   withdrawnConsentType := "marketing"
                   ipAddress := ctx.ipAddress
                   userAgent := ctx.userAgent
                   previousConsent := { cs.current with
                     preferences :=
                       setPref cs.current.preferences "marketing" false } }] }
              : ConsentState) } := by
    rw [withdrawConsent, h]
    rfl
  refine ⟨_, _, hw, rfl, ?_, ?_, ?_⟩
  · show (setPref cs.current.preferences "marketing" false).marketing = false
    rw [setPref_marketing]
  · show (setPref cs.current.preferences "marketing" false).analytics
      = cs.current.preferences.analytics
    rw [setPref_marketing]
  · rfl

/-- Witness for `c6_withdraw_marketing` at the concrete record `c6Rec`. -/
theorem c6_withdraw_marketing_witness :
    c6Rec.consent = some c6CS ∧
    (∃ r' cs', withdrawConsent c6Rec "marketing" {} "t1" = .ok r' ∧
      r'.consent = some cs' ∧
      cs'.current.preferences.marketing = false ∧
      cs'.current.preferences.analytics = c6CS.current.preferences.analytics ∧
      cs'.withdrawals = c6CS.withdrawals ++
        [{ withdrawnAt := "t1"
           withdrawnConsentType := "marketing"
           ipAddress := none
           userAgent := none
           previousConsent :=
             { c6CS.current with preferences := cs'.current.preferences } }]) :=
  ⟨rfl, c6_withdraw_marketing c6Rec c6CS {} "t1" rfl⟩

/-- C8, counterexample: `hasValidConsent(record, "necessary")` is *not*
true regardless of the record's consent state — on a record with no
consent at all it returns `false`, because the guards on lines 301 and
308 run before the `necessary` switch arm. -/
theorem c8_necessary_counterexample :
    hasValidConsent ({} : Rec) "necessary" = false := by
  rfl

/-- C8, amended: `hasValidConsent` returns `false` whenever the record
has no consent block or its current consent fails the compliance check
(`specific`, `informed`, `unambiguous` all true, non-empty purpose,
recorded timestamp, `canWithdraw`); when the current consent passes that
check, `necessary` returns `true` regardless of the preference flags,
and each other processing type returns its preference flag. -/
theorem c8_hasValidConsent_gating (r : Rec) :
    (r.consent = none → ∀ t, hasValidConsent r t = false) ∧
    (∀ cs, r.consent = some cs → isGdprCompliantConsent cs.current = false →
      ∀ t, hasValidConsent r t = false) ∧
    (∀ cs, r.consent = some cs → isGdprCompliantConsent cs.current = true →
      hasValidConsent r "necessary" = true ∧
      hasValidConsent r "marketing" = cs.current.preferences.marketing ∧
      hasValidConsent r "analytics" = cs.current.preferences.analytics ∧
      hasValidConsent r "personalization"
        = cs.current.preferences.personalization ∧
      hasValidConsent r "third_party_sharing"
        = cs.current.preferences.thirdPartySharing ∧
      hasValidConsent r "international_transfer"
        = cs.current.preferences.internationalTransfer) := by
  refine ⟨?_, ?_, ?_⟩
  · intro h t
    rw [hasValidConsent, h]
  · intro cs h hbad t
    rw [hasValidConsent, h]
    show (if ¬ isGdprCompliantConsent cs.current then false else _) = false
    rw [hbad]
    simp
  · intro cs h hok
    refine ⟨?_, ?_, ?_, ?_, ?_, ?_⟩ <;>
      · rw [hasValidConsent, h]
        simp [hok]

/-- Witness for `c8_hasValidConsent_gating` at `c6Rec`-shaped concrete
data: with a compliant consent, `necessary` is allowed and `marketing`
follows the flag. -/
def c8CS : ConsentState :=
  { current := mkConsentRecord { marketing := some true } {} "t0"
    history := []
    withdrawals := [] }

/-- The concrete record for the C8 witness. -/
def c8Rec : Rec := { consent := some c8CS }

/-- Witness for `c8_hasValidConsent_gating`. -/
theorem c8_hasValidConsent_gating_witness :
    hasValidConsent c8Rec "necessary" = true ∧
    hasValidConsent c8Rec "marketing" = true := by
  have h := (c8_hasValidConsent_gating c8Rec).2.2 c8CS rfl (by rfl)
  refine ⟨h.1, ?_⟩
  rw [h.2.1]
  rfl

/-! ## Claim C9 — in-place mutation versus copy-on-write

The JS functions receive object references.  `recordConsent` assigns
into its argument (`userData._consent = …`, lines 237–246) and returns
that same object, and `withdrawConsent` likewise writes through
`userData._consent` (lines 270–292): for these two operations the state
of the caller's record after the call *is* the returned record.
`process` instead spread-copies its argument (`{...data}` on line 28 of
RuleEngine.js, again in `applyLaw` line 71, `minimizeData` line 374 and
`autoEncryptSensitiveFields` line 132) and every subsequent write —
including the `recordConsent` call, which `applyLaw` only reaches when
the copy has no `_consent` block, so the in-place history push never
touches an object shared with the original — targets one of those
copies; the caller's record is unchanged after `process`. -/

/-- The caller's record after `recordConsent` returns: the function
writes into its argument and returns it. -/
def recordConsentOriginalAfter (r : Rec) (opts : ConsentOptions)
    (ctx : CallCtx) (now : String) : Rec :=
  recordConsent r opts ctx now

/-- The caller's record after `withdrawConsent` returns: the mutated
object on success, unchanged when the call throws before writing. -/
def withdrawConsentOriginalAfter (r : Rec) (t : String) (ctx : CallCtx)
    (now : String) : Rec :=
  match withdrawConsent r t ctx now with
  | .ok r' => r'
  | .error _ => r

/-- The caller's record after `process` returns: unchanged (all writes
in the pipeline target spread copies, see the section comment). -/
def processOriginalAfter (r : Rec) : Rec := r

/-- C9, counterexample: `recordConsent` does *not* leave the caller's
original record unchanged — called on a record without consent, the
caller's record afterwards carries the new `_consent` block. -/
theorem c9_mutation_counterexample :
    recordConsentOriginalAfter {} {} {} "t0" ≠ ({} : Rec) := by
  decide

/-- C9, amended: `process` never mutates the caller's record, but
`recordConsent` and `withdrawConsent` update the caller's record in
place (the caller's record after the call is exactly the returned
record, and it differs from the original: `recordConsent` installs or
replaces the current consent, and a successful `withdrawConsent` grows
the withdrawal ledger). -/
theorem c9_in_place_mutation (r : Rec) (opts : ConsentOptions)
    (ctx : CallCtx) (now : String) :
    processOriginalAfter r = r ∧
    recordConsentOriginalAfter r opts ctx now = recordConsent r opts ctx now ∧
    recordConsentOriginalAfter r opts ctx now ≠ r ∧
    (∀ t cs, r.consent = some cs →
      withdrawConsentOriginalAfter r t ctx now ≠ r) := by
  refine ⟨rfl, rfl, ?_, ?_⟩
  · intro hcon
    have hc := congrArg Rec.consent hcon
    cases hcs : r.consent with
    | none =>
      simp only [recordConsentOriginalAfter, recordConsent, hcs] at hc
      exact Option.noConfusion hc
    | some cs =>
      simp only [recordConsentOriginalAfter, recordConsent, hcs] at hc
      have hh := congrArg
        (fun o => (Option.map (fun s => s.history.length) o).getD 0) hc
      simp only [Option.map_some', Option.getD_some, List.length_append,
        List.length_singleton] at hh
      omega
  · intro t cs hcs hcon
    have hc := congrArg Rec.consent hcon
    by_cases ht : t = "all"
    · subst ht
      simp only [withdrawConsentOriginalAfter, withdrawConsent, hcs,
        eq_self_iff_true, if_true] at hc
      have hh := congrArg
        (fun o => (Option.map (fun s => s.withdrawals.length) o).getD 0) hc
      simp only [Option.map_some', Option.getD_some, List.length_append,
        List.length_singleton] at hh
      omega
    · simp only [withdrawConsentOriginalAfter, withdrawConsent, hcs,
        if_neg ht] at hc
      have hh := congrArg
        (fun o => (Option.map (fun s => s.withdrawals.length) o).getD 0) hc
      simp at hh

/-- Witness for `c9_in_place_mutation` at a concrete record with
consent. -/
theorem c9_in_place_mutation_witness :
    c6Rec.consent = some c6CS ∧
    processOriginalAfter c6Rec = c6Rec ∧
    recordConsentOriginalAfter c6Rec {} {} "t2" ≠ c6Rec ∧
    withdrawConsentOriginalAfter c6Rec "all" {} "t2" ≠ c6Rec := by
  have h := c9_in_place_mutation c6Rec {} {} "t2"
  exact ⟨rfl, h.1, h.2.2.1, h.2.2.2 "all" c6CS rfl⟩

/-! ## Field Classifier and Obligation Resolver (`lib/core/RuleEngine.js`) -/

/-- A classification entry as built by `RuleEngine.classifyField` /
`loadFieldClassifications` / `inferClassification` (lines 202–346).
The inferred (pattern-matched) classifications carry no
`recommendation`, `encryptionRequired` or `retentionDays` keys; the
absent values (`undefined`) are modelled as `""`, `false` and `0` —
every reader treats them through falsy coercions (`encryptionRequired
&&` on line 137 of DataEncryptor.js, `retentionDays || 365` on line
396), for which these stand-ins behave identically. -/
structure ClassInfo where
  type : String
  sensitivity : String
  laws : List String
  recommendation : String := ""
  encryptionRequired : Bool := false
  retentionDays : Nat := 0
deriving DecidableEq, Repr

/-- `RuleEngine.loadFieldClassifications()` (lines 209–311): the fixed
table of well-known field names. -/
def fieldClassificationsTable (name : String) : Option ClassInfo :=
  if name = "email" then some
    { type := "direct_identifier", sensitivity := "high"
      laws := ["GDPR", "CCPA", "LGPD"], recommendation := "encrypt_at_rest"
      encryptionRequired := true, retentionDays := 365 }
  else if name = "phone" then some
    { type := "direct_identifier", sensitivity := "high"
      laws := ["GDPR", "CCPA"], recommendation := "encrypt_at_rest"
      encryptionRequired := true, retentionDays := 365 }
  else if name = "phoneNumber" then some
    { type := "direct_identifier", sensitivity := "high"
      laws := ["GDPR", "CCPA"], recommendation := "encrypt_at_rest"
      encryptionRequired := true, retentionDays := 365 }
  else if name = "birthdate" then some
    { type := "demographic", sensitivity := "medium"
      laws := ["GDPR", "COPPA"], recommendation := "store_age_range_instead"
      encryptionRequired := false, retentionDays := 365 }
  else if name = "age" then some
    { type := "demographic", sensitivity := "low"
      laws := ["GDPR"], recommendation := "store_age_range"
      encryptionRequired := false, retentionDays := 365 }
  else if name = "location" then some
    { type := "geolocation", sensitivity := "high"
      laws := ["GDPR"], recommendation := "store_region_instead_of_precise"
      encryptionRequired := true, retentionDays := 90 }
  else if name = "gps" then some
    { type := "geolocation", sensitivity := "high"
      laws := ["GDPR"], recommendation := "avoid_storage_use_ephemeral"
      encryptionRequired := true, retentionDays := 7 }
  else if name = "creditCard" then some
    { type := "financial", sensitivity := "critical"
      laws := ["GDPR", "PCI_DSS"], recommendation := "never_store_use_tokenization"
      encryptionRequired := true, retentionDays := 0 }
  else if name = "password" then some
    { type := "credential", sensitivity := "critical"
      laws := ["GDPR"], recommendation := "hash_with_salt"
      encryptionRequired := true, retentionDays := 0 }
  else if name = "interests" then some
    { type := "behavioral", sensitivity := "low"
      laws := ["GDPR"], recommendation := "anonymous_aggregation_ok"
      encryptionRequired := false, retentionDays := 730 }
  else if name = "preferences" then some
    { type := "behavioral", sensitivity := "low"
      laws := ["GDPR"], recommendation := "can_be_stored_anonymously"
      encryptionRequired := false, retentionDays := 730 }
  else none

/-- JS `String.prototype.includes` on the char-list view. -/
def hasSub (pat : List Char) : List Char → Bool
  | [] => pat.isEmpty
  | c :: rest => pat.isPrefixOf (c :: rest) || hasSub pat rest

/-- `s.includes(pat)` for Lean strings. -/
def strIncludes (s pat : String) : Bool := hasSub pat.data s.data

/-- `RuleEngine.inferClassification(fieldName, value, fullData)` (lines
313–346): substring heuristics on the lowercased field name (the source
ignores its `value` and `fullData` parameters).  `Char.toLower` matches
`toLowerCase` on the ASCII field names the heuristics compare. -/
def inferClassification (fieldName : String) : ClassInfo :=
  let lowerField := fieldName.map Char.toLower
  if strIncludes lowerField "email" then
    { type := "direct_identifier", sensitivity := "high", laws := ["GDPR", "CCPA"] }
  else if strIncludes lowerField "phone" || strIncludes lowerField "mobile" then
    { type := "direct_identifier", sensitivity := "high", laws := ["GDPR", "CCPA"] }
  else if strIncludes lowerField "birth" || strIncludes lowerField "dob" then
    { type := "demographic", sensitivity := "medium", laws := ["GDPR"] }
  else if strIncludes lowerField "location" || strIncludes lowerField "gps"
      || strIncludes lowerField "coord" then
    { type := "geolocation", sensitivity := "high", laws := ["GDPR"] }
  else if strIncludes lowerField "pass" || strIncludes lowerField "pwd" then
    { type := "credential", sensitivity := "critical", laws := ["GDPR"] }
  else
    { type := "general", sensitivity := "low", laws := ["GDPR"]
      recommendation := "standard_handling", encryptionRequired := false
      retentionDays := 365 }

/-- `RuleEngine.classifyField` (lines 202–207): table lookup with
inference fallback. -/
def classifyField (name : String) : ClassInfo :=
  (fieldClassificationsTable name).getD (inferClassification name)

/-- A classification as emitted by `classifyData` (lines 186–196); the
masked display `value` entry is omitted from the model — no modelled
consumer reads it (`autoEncryptSensitiveFields` uses `field` and
`encryptionRequired`, `calculateRetentionPeriod` uses `retentionDays`,
`checkForWarnings` uses `sensitivity`). -/
structure Classification where
  field : String
  type : String
  sensitivity : String
  laws : List String
  recommendation : String
  encryptionRequired : Bool
  retentionDays : Nat
deriving DecidableEq, Repr

/-- `RuleEngine.classifyData(data)` (lines 180–200): one classification
per field, skipping fields whose value is `undefined`/`null`.  The
source iterates the record's enumerable own properties; the reserved
blocks (`_consent`, `_deletionMetadata`, `_ccpaRights`) also appear
there but always classify as `general`/`low` with no encryption flag,
so restricting the model to the data fields is behaviour-preserving for
every modelled consumer. -/
def classifyData (fields : List (String × FieldVal)) : List Classification :=
  fields.filterMap (fun kv =>
    if kv.2 = FieldVal.plain .null then none
    else
      let c := classifyField kv.1
      some { field := kv.1, type := c.type, sensitivity := c.sensitivity
             laws := c.laws, recommendation := c.recommendation
             encryptionRequired := c.encryptionRequired
             retentionDays := c.retentionDays })

/-- Whether a field name's classification requires encryption — a
function of the name alone (the table is keyed by name, and every
inferred classification leaves the flag unset/falsy). -/
def encReq (name : String) : Bool :=
  match fieldClassificationsTable name with
  | some c => c.encryptionRequired
  | none => false

theorem classifyField_encReq (name : String) :
    (classifyField name).encryptionRequired = encReq name := by
  rw [classifyField, encReq]
  cases h : fieldClassificationsTable name with
  | some c => rfl
  | none =>
    show (inferClassification name).encryptionRequired = false
    rw [inferClassification]
    split
    · rfl
    · split
      · rfl
      · split
        · rfl
        · split
          · rfl
          · split
            · rfl
            · rfl

/-- `DataEncryptor.encrypt` applied to a field's current value inside
`autoEncryptSensitiveFields`; the `enc` case is unreachable there (the
caller guards on `!isEncrypted`). -/
def encryptField (master iv salt : Nat) (fieldName : String) :
    FieldVal → FieldVal
  | .plain w => encrypt master w fieldName iv salt
  | .enc e => .enc e

/-- `DataEncryptor.autoEncryptSensitiveFields(data, classifications)`
(lines 131–143): walk the classifications in order; for each one whose
`encryptionRequired` flag is set and whose field currently holds a
truthy, not-yet-encrypted value, replace that value by its encryption.
`rnd` supplies the fresh (iv, salt) pair drawn for a field.
`autoEncStep` is the body of the `forEach` (lines 134–140): encrypt the
classified field when flagged, truthy and not already encrypted. -/
def autoEncStep (master : Nat) (rnd : String → Nat × Nat)
    (acc : List (String × FieldVal)) (c : Classification) :
    List (String × FieldVal) :=
  match lookupField acc c.field with
  | some v =>
    if c.encryptionRequired && truthyF v && !(isEncrypted v) then
      setField acc c.field
        (encryptField master (rnd c.field).1 (rnd c.field).2 c.field v)
    else acc
  | none => acc

def autoEncryptSensitiveFields (master : Nat) (rnd : String → Nat × Nat)
    (fields : List (String × FieldVal)) (cls : List Classification) :
    List (String × FieldVal) :=
  cls.foldl (autoEncStep master rnd) fields

/-- First-occurrence deduplication with an explicit seen-set, the model
of `[...new Set(laws)]` (line 148): keep each element's first
occurrence, in order. -/
def dedupFirstAux (seen : List String) : List String → List String
  | [] => []
  | a :: rest =>
    if a ∈ seen then dedupFirstAux seen rest
    else a :: dedupFirstAux (a :: seen) rest

/-- `[...new Set(l)]`. -/
def dedupFirst (l : List String) : List String := dedupFirstAux [] l

/-- The `process`/`applyLaw` context argument
(`RuleEngine.process(data, context)`). -/
structure Ctx where
  country : Option String := none
  action : Option String := none
  ipAddress : Option String := none
  userAgent : Option String := none
  marketingConsent : Option Bool := none
  analyticsConsent : Option Bool := none
  personalizationConsent : Option Bool := none
deriving DecidableEq, Repr

/-- `RuleEngine.determineApplicableLaws(context)` (lines 128–149):
always GDPR; `US`/`CA` add CCPA, `BR` adds LGPD, `CA` adds PIPEDA,
matching the upper-cased country; `[...new Set]` deduplication at the
end.  An empty country string is falsy in the `if (context.country)`
guard, like an absent one. -/
def determineApplicableLaws (ctx : Ctx) : List String :=
  match ctx.country with
  | none => dedupFirst ["GDPR"]
  | some c =>
    if c = "" then dedupFirst ["GDPR"]
    else
      dedupFirst (["GDPR"]
        ++ (if c.map Char.toUpper = "US" ∨ c.map Char.toUpper = "CA" then
              ["CCPA"] else [])
        ++ (if c.map Char.toUpper = "BR" then ["LGPD"] else [])
        ++ (if c.map Char.toUpper = "CA" then ["PIPEDA"] else []))

/-- The GDPR right set pushed by `getDataRights` (lines 157–164). -/
def gdprRights : List String :=
  ["right_to_access", "right_to_rectification", "right_to_erasure",
   "right_to_restrict_processing", "right_to_data_portability",
   "right_to_object"]

/-- The CCPA right set pushed by `getDataRights` (lines 167–172). -/
def ccpaRightsList : List String :=
  ["right_to_know", "right_to_delete", "right_to_opt_out",
   "right_to_non_discrimination"]

/-- `RuleEngine.getDataRights(laws)` (lines 151–178). -/
def getDataRights (laws : List String) : List String :=
  dedupFirst (laws.foldl (fun acc law =>
    if law = "GDPR" then acc ++ gdprRights
    else if law = "CCPA" then acc ++ ccpaRightsList
    else acc) [])

/-- `RuleEngine.hasExcessiveData(data)` (lines 367–371): key presence
(`field in data`), regardless of the value. -/
def hasExcessiveData (fields : List (String × FieldVal)) : Bool :=
  ["socialSecurity", "driversLicense", "passportNumber"].any
    (fun f => (lookupField fields f).isSome)

/-- `RuleEngine.minimizeData(data, context)` (lines 373–385): on a
`registration` action, drop a truthy `gps` field (JS `delete` removes
the key; the filter is identical on JS-representable records, whose
keys are unique). -/
def minimizeData (fields : List (String × FieldVal)) (ctx : Ctx) :
    List (String × FieldVal) :=
  if ctx.action = some "registration" then
    if truthyO (lookupField fields "gps") then
      fields.filter (fun kv => kv.1 ≠ "gps")
    else fields
  else fields

/-- `RuleEngine.canBeDeleted(data)` (lines 387–391): deletable unless a
critical identifying key is present. -/
def canBeDeletedB (fields : List (String × FieldVal)) : Bool :=
  !(["email", "phone", "userId"].any (fun f => (lookupField fields f).isSome))

/-- `RuleEngine.calculateRetentionPeriod(data)` (lines 393–398):
`Math.max` of `retentionDays || 365` over `classifyData`'s output.  The
source's `classifyData` iterates every enumerable own property of its
argument, so the reserved blocks `_consent`, `_deletionMetadata` and
`_ccpaRights` are classified too when present (each is a non-null
object, so the null-skip does not apply); those three names miss the
classification table and every inference pattern, so each present block
contributes the default branch's 365 days to the max.  (The spread of
`Math.max` over an empty classification list yields `-Infinity` in JS;
the model folds from 0.) -/
def calculateRetentionPeriod (r : Rec) : Nat :=
  let base := (classifyData r.fields).foldl
    (fun m c => max m (if c.retentionDays = 0 then 365 else c.retentionDays)) 0
  let base := if r.consent.isSome then max base 365 else base
  let base := if r.deletionMetadata.isSome then max base 365 else base
  if r.ccpaRights.isSome then max base 365 else base

/-- The deletion-metadata block computed by the GDPR pass (lines
100–108).  `canBeDeleted` inspects key presence only, so the reserved
blocks (never named `email`/`phone`/`userId`) cannot affect it;
`calculateRetentionPeriod` sees the whole record. -/
def mkDeletionMeta (r : Rec) : DeletionMeta :=
  { canBeDeleted := canBeDeletedB r.fields
    retentionPeriod := calculateRetentionPeriod r
    deletionProcedure := "anonymize_sensitive_keep_anonymous"
    consentWithdrawalImpact := "stop_processing_immediately" }

/-- A warning entry (`RuleEngine.checkForWarnings`, lines 400–437). -/
structure Warning where
  level : String
  message : String
  field : Option String := none
  recommendation : Option String := none
deriving DecidableEq, Repr

/-- `data.password.length < 12`: only strings carry a `length` in the
modelled universe (`undefined < 12` is `false` for every other value,
including an EncryptedField object). -/
def jsLengthLt12 (v : FieldVal) : Bool :=
  match v with
  | .plain (.str s) => decide (s.length < 12)
  | _ => false

/-- `RuleEngine.checkForWarnings(data)` (lines 400–437): the weak
password check (`data.password && data.password.length < 12`), the
missing-consent check (`!data._complianceConsent` — a plain property
read on the record), and the high-sensitivity count check. -/
def checkForWarnings (r : Rec) : List Warning :=
  (match lookupField r.fields "password" with
   | some v =>
     if truthyF v && jsLengthLt12 v then
       [{ level := "high"
          message := "Password is too weak (minimum 12 characters recommended)"
          field := some "password"
          recommendation := some "enforce_stronger_password_policy" }]
     else []
   | none => []) ++
  (if truthyO (lookupField r.fields "_complianceConsent") then []
   else
     [{ level := "medium"
        message := "No explicit consent recorded for data processing"
        field := some "_complianceConsent"
        recommendation := some "capture_explicit_consent_with_timestamp" }]) ++
  (let piiCount := ((classifyData r.fields).filter
      (fun c => c.sensitivity = "high" ∨ c.sensitivity = "critical")).length
   if 3 < piiCount then
     [{ level := "medium"
        message := "Collecting " ++ toString piiCount ++
          " high-sensitivity fields - consider data minimization"
        field := none
        recommendation := some "review_data_collection_practices" }]
   else [])

/-- The engine configuration after `ConfigManager` merges the defaults
(`autoEncrypt: true`); `autoEncrypt !== false` on a merged boolean
config is the flag itself.  `masterKey` is the resolved
`encryptionKey`. -/
structure Config where
  autoEncrypt : Bool := true
  masterKey : Nat := 0
deriving DecidableEq, Repr

/-- The consent options the GDPR pass derives from the context
(`RuleEngine.applyLaw`, lines 77–89). -/
def optsFromCtx (ctx : Ctx) : ConsentOptions :=
  { purpose := some (jsOrStr ctx.action "general_processing")
    marketing := some (ctx.marketingConsent.getD false)
    analytics := some (ctx.analyticsConsent ≠ some false)
    personalization := some (ctx.personalizationConsent.getD false) }

/-- Step (1) of the GDPR case of `RuleEngine.applyLaw` (lines 76–91):
record consent from the context's consent flags when the record has
none. -/
def gdprConsent (r : Rec) (ctx : Ctx) (now : String) : Rec × List String :=
  if r.consent.isSome then (r, [])
  else (recordConsent r (optsFromCtx ctx)
          { ipAddress := ctx.ipAddress, userAgent := ctx.userAgent } now,
        ["gdpr_consent_recorded"])

/-- Step (2) of the GDPR case (lines 94–97): minimize when the incoming
record carries excessive data.  `fields0` is the incoming record's
fields — the source guard reads `data`, not `processedData`. -/
def gdprMinimize (fields0 : List (String × FieldVal)) (rp : Rec × List String)
    (ctx : Ctx) : Rec × List String :=
  if hasExcessiveData fields0 then
    ({ rp.1 with fields := minimizeData rp.1.fields ctx },
     rp.2 ++ ["gdpr_data_minimization_applied"])
  else rp

/-- Step (3) of the GDPR case (lines 100–108): attach deletion metadata
when absent. -/
def gdprDeletion (rp : Rec × List String) : Rec × List String :=
  if rp.1.deletionMetadata.isSome then rp
  else ({ rp.1 with deletionMetadata := some (mkDeletionMeta rp.1) },
        rp.2 ++ ["gdpr_deletion_metadata_added"])

/-- The whole GDPR case of `applyLaw`. -/
def gdprPass (r : Rec) (ctx : Ctx) (now : String) : Rec × List String :=
  gdprDeletion (gdprMinimize r.fields (gdprConsent r ctx now) ctx)

/-- The CCPA case of `applyLaw` (lines 111–122): attach the
opt-out-of-sale rights block when absent. -/
def ccpaPass (r : Rec) (now : String) : Rec × List String :=
  if r.ccpaRights.isSome then (r, [])
  else
    let rights : CcpaRights :=
      { optOutOfSale := true, verified := false
        lastUpdated := now, method := "user_request" }
    ({ r with ccpaRights := some rights }, ["ccpa_rights_metadata_added"])

/-- `RuleEngine.applyLaw(data, law, context)` (lines 69–126).  GDPR:
record consent when absent, minimize when excessive data is present,
attach deletion metadata when absent.  CCPA: attach the rights block
when absent.  Unknown laws are no-ops (the `switch` has no other
cases). -/
def applyLaw (r : Rec) (law : String) (ctx : Ctx) (now : String) :
    Rec × List String :=
  if law = "GDPR" then gdprPass r ctx now
  else if law = "CCPA" then ccpaPass r now
  else (r, [])

/-- The result of `RuleEngine.process` (lines 61–66): the transformed
record plus the compliance metadata that the source attaches as the
non-enumerable `_compliance` annotation and in the `compliance`
envelope.  `processingTime` (a clock difference) is not modelled. -/
structure ProcessResult where
  data : Rec
  applicableLaws : List String
  actions : List String
  dataRights : List String
  warnings : List Warning
deriving Repr

/-- The fold of `applyLaw` across the applicable laws
(`RuleEngine.process`, lines 31–35), threading the record and
accumulating the action tags. -/
def applyLaws (laws : List String) (ctx : Ctx) (now : String)
    (acc : Rec × List String) : Rec × List String :=
  laws.foldl (fun acc law =>
    let res := applyLaw acc.1 law ctx now
    (res.1, acc.2 ++ res.2)) acc

/-- `RuleEngine.process(data, context)` (lines 16–67): resolve laws,
fold `applyLaw` over them accumulating actions, classify, auto-encrypt
when enabled, then compute warnings on the final record.  The
`processedData !== data` comparison on line 43 compares object
references — `autoEncryptSensitiveFields` always returns a fresh spread
copy, so the `sensitive_fields_encrypted` action is pushed whenever
auto-encryption is enabled. -/
def process (cfg : Config) (r : Rec) (ctx : Ctx) (rnd : String → Nat × Nat)
    (now : String) : ProcessResult :=
  let laws := determineApplicableLaws ctx
  let step := applyLaws laws ctx now (r, [])
  let cls := classifyData step.1.fields
  let r2 := if cfg.autoEncrypt then
      { step.1 with
        fields := autoEncryptSensitiveFields cfg.masterKey rnd step.1.fields cls }
    else step.1
  let actions := if cfg.autoEncrypt then
      step.2 ++ ["sensitive_fields_encrypted"]
    else step.2
  { data := r2
    applicableLaws := laws
    actions := actions
    dataRights := getDataRights laws
    warnings := checkForWarnings r2 }

/-! ## Lemmas about field maps -/

theorem lookupField_setField_self (f : List (String × FieldVal))
    (k : String) (v : FieldVal) :
    lookupField (setField f k v) k = some v := by
  induction f with
  | nil => simp [setField, lookupField]
  | cons kv rest ih =>
    obtain ⟨k', w⟩ := kv
    by_cases hk : k' = k
    · simp [setField, hk, lookupField]
    · simp [setField, hk, lookupField, ih]

theorem lookupField_setField_ne (f : List (String × FieldVal))
    (k key : String) (v : FieldVal) (h : key ≠ k) :
    lookupField (setField f k v) key = lookupField f key := by
  induction f with
  | nil =>
    show lookupField [(k, v)] key = none
    rw [lookupField, if_neg (fun hk : k = key => h hk.symm)]
    rfl
  | cons kv rest ih =>
    obtain ⟨k', w⟩ := kv
    by_cases hk : k' = k
    · subst hk
      rw [setField, if_pos rfl]
      rw [lookupField, if_neg (fun hk : k' = key => h hk.symm)]
      rw [lookupField, if_neg (fun hk : k' = key => h hk.symm)]
    · rw [setField, if_neg hk]
      by_cases hky : k' = key
      · rw [lookupField, if_pos hky, lookupField, if_pos hky]
      · rw [lookupField, if_neg hky, lookupField, if_neg hky, ih]

theorem lookupField_filter_ne (f : List (String × FieldVal))
    (key bad : String) (h : key ≠ bad) :
    lookupField (f.filter (fun kv => kv.1 ≠ bad)) key
      = lookupField f key := by
  induction f with
  | nil => rfl
  | cons kv rest ih =>
    obtain ⟨k', w⟩ := kv
    by_cases hb : k' = bad
    · rw [List.filter_cons_of_neg (by simp [hb])]
      rw [ih, lookupField, if_neg (fun hk : k' = key => h (hk ▸ hb))]
    · rw [List.filter_cons_of_pos (by simp [hb])]
      by_cases hky : k' = key
      · rw [lookupField, if_pos hky, lookupField, if_pos hky]
      · rw [lookupField, if_neg hky, lookupField, if_neg hky, ih]

theorem lookupField_filter_self (f : List (String × FieldVal))
    (bad : String) :
    lookupField (f.filter (fun kv => kv.1 ≠ bad)) bad = none := by
  induction f with
  | nil => rfl
  | cons kv rest ih =>
    obtain ⟨k', w⟩ := kv
    by_cases hb : k' = bad
    · rw [List.filter_cons_of_neg (by simp [hb])]
      exact ih
    · rw [List.filter_cons_of_pos (by simp [hb])]
      rw [lookupField, if_neg hb, ih]

theorem lookupField_mem {f : List (String × FieldVal)} {key : String}
    {v : FieldVal} (h : lookupField f key = some v) : (key, v) ∈ f := by
  induction f with
  | nil => cases h
  | cons kv rest ih =>
    obtain ⟨k', w⟩ := kv
    rw [lookupField] at h
    by_cases hk : k' = key
    · rw [if_pos hk] at h
      injection h with h
      subst hk
      subst h
      exact List.mem_cons_self _ _
    · rw [if_neg hk] at h
      exact List.mem_cons_of_mem _ (ih h)

/-! ## Lemmas about `minimizeData` and `recordConsent` -/

theorem minimizeData_lookup_ne (f : List (String × FieldVal)) (ctx : Ctx)
    (key : String) (h : key ≠ "gps") :
    lookupField (minimizeData f ctx) key = lookupField f key := by
  rw [minimizeData]
  split
  · split
    · exact lookupField_filter_ne f key "gps" h
    · rfl
  · rfl

theorem minimizeData_id_of (f : List (String × FieldVal)) (ctx : Ctx)
    (h : ctx.action ≠ some "registration"
      ∨ truthyO (lookupField f "gps") = false) :
    minimizeData f ctx = f := by
  rw [minimizeData]
  rcases h with h | h
  · rw [if_neg h]
  · split
    · rw [if_neg (by rw [h]; exact Bool.false_ne_true)]
    · rfl

theorem minimizeData_gps_untruthy (f : List (String × FieldVal)) (ctx : Ctx)
    (h : ctx.action = some "registration") :
    truthyO (lookupField (minimizeData f ctx) "gps") = false := by
  rw [minimizeData, if_pos h]
  by_cases ht : truthyO (lookupField f "gps") = true
  · rw [if_pos ht, lookupField_filter_self]
    rfl
  · rw [if_neg ht]
    exact Bool.not_eq_true _ ▸ ht

theorem recordConsent_fields (r : Rec) (o : ConsentOptions) (c : CallCtx)
    (n : String) : (recordConsent r o c n).fields = r.fields := by
  cases hr : r.consent <;> simp [recordConsent, hr]

theorem recordConsent_deletionMetadata (r : Rec) (o : ConsentOptions)
    (c : CallCtx) (n : String) :
    (recordConsent r o c n).deletionMetadata = r.deletionMetadata := by
  cases hr : r.consent <;> simp [recordConsent, hr]

theorem recordConsent_ccpaRights (r : Rec) (o : ConsentOptions)
    (c : CallCtx) (n : String) :
    (recordConsent r o c n).ccpaRights = r.ccpaRights := by
  cases hr : r.consent <;> simp [recordConsent, hr]

theorem recordConsent_consent_isSome (r : Rec) (o : ConsentOptions)
    (c : CallCtx) (n : String) :
    (recordConsent r o c n).consent.isSome = true := by
  cases hr : r.consent <;> simp [recordConsent, hr]

/-! ## Lemmas about the obligation steps -/

theorem foldl_inv {α : Type} {β : Type} (g : α → β → α) (P : α → Prop)
    (h : ∀ a b, P a → P (g a b)) :
    ∀ (l : List β) (a : α), P a → P (l.foldl g a) := by
  intro l
  induction l with
  | nil => intro a ha; exact ha
  | cons b rest ih =>
    intro a ha
    exact ih _ (h a b ha)

theorem gdprConsent_fields (r : Rec) (ctx : Ctx) (now : String) :
    (gdprConsent r ctx now).1.fields = r.fields := by
  rw [gdprConsent]
  split
  · rfl
  · exact recordConsent_fields r _ _ now

theorem gdprConsent_deletionMetadata (r : Rec) (ctx : Ctx) (now : String) :
    (gdprConsent r ctx now).1.deletionMetadata = r.deletionMetadata := by
  rw [gdprConsent]
  split
  · rfl
  · exact recordConsent_deletionMetadata r _ _ now

theorem gdprConsent_ccpaRights (r : Rec) (ctx : Ctx) (now : String) :
    (gdprConsent r ctx now).1.ccpaRights = r.ccpaRights := by
  rw [gdprConsent]
  split
  · rfl
  · exact recordConsent_ccpaRights r _ _ now

theorem gdprConsent_consent_isSome (r : Rec) (ctx : Ctx) (now : String) :
    (gdprConsent r ctx now).1.consent.isSome = true := by
  rw [gdprConsent]
  split
  · rename_i h
    exact h
  · exact recordConsent_consent_isSome r _ _ now

theorem gdprConsent_id (r : Rec) (ctx : Ctx) (now : String)
    (h : r.consent.isSome = true) : gdprConsent r ctx now = (r, []) := by
  rw [gdprConsent, if_pos h]

theorem gdprMinimize_consent (f0 : List (String × FieldVal))
    (rp : Rec × List String) (ctx : Ctx) :
    (gdprMinimize f0 rp ctx).1.consent = rp.1.consent := by
  rw [gdprMinimize]
  split <;> rfl

theorem gdprMinimize_deletionMetadata (f0 : List (String × FieldVal))
    (rp : Rec × List String) (ctx : Ctx) :
    (gdprMinimize f0 rp ctx).1.deletionMetadata = rp.1.deletionMetadata := by
  rw [gdprMinimize]
  split <;> rfl

theorem gdprMinimize_ccpaRights (f0 : List (String × FieldVal))
    (rp : Rec × List String) (ctx : Ctx) :
    (gdprMinimize f0 rp ctx).1.ccpaRights = rp.1.ccpaRights := by
  rw [gdprMinimize]
  split <;> rfl

theorem gdprMinimize_fields (f0 : List (String × FieldVal))
    (rp : Rec × List String) (ctx : Ctx) :
    (gdprMinimize f0 rp ctx).1.fields = rp.1.fields ∨
    (gdprMinimize f0 rp ctx).1.fields = minimizeData rp.1.fields ctx := by
  rw [gdprMinimize]
  split
  · right
    rfl
  · left
    rfl

theorem gdprMinimize_id (f0 : List (String × FieldVal))
    (rp : Rec × List String) (ctx : Ctx)
    (h : hasExcessiveData f0 = true → minimizeData rp.1.fields ctx = rp.1.fields) :
    (gdprMinimize f0 rp ctx).1 = rp.1 := by
  rw [gdprMinimize]
  split
  · rename_i hex
    show ({ rp.1 with fields := minimizeData rp.1.fields ctx } : Rec) = rp.1
    rw [h hex]
  · rfl

theorem gdprDeletion_consent (rp : Rec × List String) :
    (gdprDeletion rp).1.consent = rp.1.consent := by
  rw [gdprDeletion]
  split <;> rfl

theorem gdprDeletion_fields (rp : Rec × List String) :
    (gdprDeletion rp).1.fields = rp.1.fields := by
  rw [gdprDeletion]
  split <;> rfl

theorem gdprDeletion_ccpaRights (rp : Rec × List String) :
    (gdprDeletion rp).1.ccpaRights = rp.1.ccpaRights := by
  rw [gdprDeletion]
  split <;> rfl

theorem gdprDeletion_delMeta_isSome (rp : Rec × List String) :
    (gdprDeletion rp).1.deletionMetadata.isSome = true := by
  rw [gdprDeletion]
  split
  · rename_i h
    exact h
  · rfl

theorem gdprDeletion_id (rp : Rec × List String)
    (h : rp.1.deletionMetadata.isSome = true) : gdprDeletion rp = rp := by
  rw [gdprDeletion, if_pos h]

theorem gdprPass_consent_isSome (r : Rec) (ctx : Ctx) (now : String) :
    (gdprPass r ctx now).1.consent.isSome = true := by
  rw [gdprPass, gdprDeletion_consent, gdprMinimize_consent]
  exact gdprConsent_consent_isSome r ctx now

theorem gdprPass_delMeta_isSome (r : Rec) (ctx : Ctx) (now : String) :
    (gdprPass r ctx now).1.deletionMetadata.isSome = true := by
  rw [gdprPass]
  exact gdprDeletion_delMeta_isSome _

theorem gdprPass_ccpaRights (r : Rec) (ctx : Ctx) (now : String) :
    (gdprPass r ctx now).1.ccpaRights = r.ccpaRights := by
  rw [gdprPass, gdprDeletion_ccpaRights, gdprMinimize_ccpaRights]
  exact gdprConsent_ccpaRights r ctx now

theorem gdprPass_fields_cases (r : Rec) (ctx : Ctx) (now : String) :
    (gdprPass r ctx now).1.fields = r.fields ∨
    (gdprPass r ctx now).1.fields = minimizeData r.fields ctx := by
  rw [gdprPass, gdprDeletion_fields]
  rcases gdprMinimize_fields r.fields (gdprConsent r ctx now) ctx with h | h
  · left
    rw [h, gdprConsent_fields]
  · right
    rw [h, gdprConsent_fields]

theorem gdprPass_id (r : Rec) (ctx : Ctx) (now : String)
    (h1 : r.consent.isSome = true)
    (h2 : r.deletionMetadata.isSome = true)
    (h4 : hasExcessiveData r.fields = true →
      minimizeData r.fields ctx = r.fields) :
    (gdprPass r ctx now).1 = r := by
  rw [gdprPass, gdprConsent_id r ctx now h1]
  have hm : (gdprMinimize r.fields ((r, []) : Rec × List String) ctx).1 = r :=
    gdprMinimize_id r.fields (r, []) ctx h4
  have hd : (gdprMinimize r.fields ((r, []) : Rec × List String) ctx).1.deletionMetadata.isSome = true := by
    rw [gdprMinimize_deletionMetadata]
    exact h2
  rw [gdprDeletion_id _ hd, hm]

theorem ccpaPass_consent (r : Rec) (now : String) :
    (ccpaPass r now).1.consent = r.consent := by
  rw [ccpaPass]
  split <;> rfl

theorem ccpaPass_fields (r : Rec) (now : String) :
    (ccpaPass r now).1.fields = r.fields := by
  rw [ccpaPass]
  split <;> rfl

theorem ccpaPass_deletionMetadata (r : Rec) (now : String) :
    (ccpaPass r now).1.deletionMetadata = r.deletionMetadata := by
  rw [ccpaPass]
  split <;> rfl

theorem ccpaPass_ccpa_isSome (r : Rec) (now : String) :
    (ccpaPass r now).1.ccpaRights.isSome = true := by
  rw [ccpaPass]
  split
  · rename_i h
    exact h
  · rfl

theorem ccpaPass_id (r : Rec) (now : String)
    (h : r.ccpaRights.isSome = true) : ccpaPass r now = (r, []) := by
  rw [ccpaPass, if_pos h]

theorem applyLaw_GDPR (r : Rec) (ctx : Ctx) (now : String) :
    applyLaw r "GDPR" ctx now = gdprPass r ctx now := by
  rw [applyLaw, if_pos rfl]

theorem applyLaw_CCPA (r : Rec) (ctx : Ctx) (now : String) :
    applyLaw r "CCPA" ctx now = ccpaPass r now := by
  rw [applyLaw, if_neg (by decide), if_pos rfl]

theorem applyLaw_consent_pres (r : Rec) (law : String) (ctx : Ctx)
    (now : String) (h : r.consent.isSome = true) :
    (applyLaw r law ctx now).1.consent.isSome = true := by
  rw [applyLaw]
  by_cases hg : law = "GDPR"
  · rw [if_pos hg]
    exact gdprPass_consent_isSome r ctx now
  · rw [if_neg hg]
    by_cases hc : law = "CCPA"
    · rw [if_pos hc, ccpaPass_consent]
      exact h
    · rw [if_neg hc]
      exact h

theorem applyLaw_delMeta_pres (r : Rec) (law : String) (ctx : Ctx)
    (now : String) (h : r.deletionMetadata.isSome = true) :
    (applyLaw r law ctx now).1.deletionMetadata.isSome = true := by
  rw [applyLaw]
  by_cases hg : law = "GDPR"
  · rw [if_pos hg]
    exact gdprPass_delMeta_isSome r ctx now
  · rw [if_neg hg]
    by_cases hc : law = "CCPA"
    · rw [if_pos hc, ccpaPass_deletionMetadata]
      exact h
    · rw [if_neg hc]
      exact h

theorem applyLaw_ccpa_pres (r : Rec) (law : String) (ctx : Ctx)
    (now : String) (h : r.ccpaRights.isSome = true) :
    (applyLaw r law ctx now).1.ccpaRights.isSome = true := by
  rw [applyLaw]
  by_cases hg : law = "GDPR"
  · rw [if_pos hg, gdprPass_ccpaRights]
    exact h
  · rw [if_neg hg]
    by_cases hc : law = "CCPA"
    · rw [if_pos hc]
      exact ccpaPass_ccpa_isSome r now
    · rw [if_neg hc]
      exact h

theorem applyLaw_fields_cases (r : Rec) (law : String) (ctx : Ctx)
    (now : String) :
    (applyLaw r law ctx now).1.fields = r.fields ∨
    (applyLaw r law ctx now).1.fields = minimizeData r.fields ctx := by
  rw [applyLaw]
  by_cases hg : law = "GDPR"
  · rw [if_pos hg]
    exact gdprPass_fields_cases r ctx now
  · rw [if_neg hg]
    by_cases hc : law = "CCPA"
    · rw [if_pos hc, ccpaPass_fields]
      left
      rfl
    · rw [if_neg hc]
      left
      rfl

theorem applyLaw_lookup_ne_gps (r : Rec) (law : String) (ctx : Ctx)
    (now : String) (key : String) (hk : key ≠ "gps") :
    lookupField ((applyLaw r law ctx now).1.fields) key
      = lookupField r.fields key := by
  rcases applyLaw_fields_cases r law ctx now with h | h
  · rw [h]
  · rw [h]
    exact minimizeData_lookup_ne r.fields ctx key hk

theorem applyLaw_gps_untruthy_pres (r : Rec) (law : String) (ctx : Ctx)
    (now : String) (h : truthyO (lookupField r.fields "gps") = false) :
    truthyO (lookupField ((applyLaw r law ctx now).1.fields) "gps") = false := by
  rcases applyLaw_fields_cases r law ctx now with hf | hf
  · rw [hf]
    exact h
  · rw [hf, minimizeData_id_of r.fields ctx (Or.inr h)]
    exact h

theorem hasExcessiveData_eq (f : List (String × FieldVal)) :
    hasExcessiveData f = ((lookupField f "socialSecurity").isSome
      || ((lookupField f "driversLicense").isSome
      || ((lookupField f "passportNumber").isSome || false))) := rfl

theorem applyLaw_hasExcessive (r : Rec) (law : String) (ctx : Ctx)
    (now : String) :
    hasExcessiveData ((applyLaw r law ctx now).1.fields)
      = hasExcessiveData r.fields := by
  rw [hasExcessiveData_eq, hasExcessiveData_eq,
    applyLaw_lookup_ne_gps r law ctx now "socialSecurity" (by decide),
    applyLaw_lookup_ne_gps r law ctx now "driversLicense" (by decide),
    applyLaw_lookup_ne_gps r law ctx now "passportNumber" (by decide)]

theorem applyLaws_cons (l : String) (ls : List String) (ctx : Ctx)
    (now : String) (r : Rec) (acc : List String) :
    applyLaws (l :: ls) ctx now (r, acc)
      = applyLaws ls ctx now
          ((applyLaw r l ctx now).1, acc ++ (applyLaw r l ctx now).2) := rfl

theorem applyLaws_fst_pres (ctx : Ctx) (now : String) (P : Rec → Prop)
    (hP : ∀ r law, P r → P ((applyLaw r law ctx now).1)) :
    ∀ (laws : List String) (r : Rec) (acc : List String),
      P r → P ((applyLaws laws ctx now (r, acc)).1) := by
  intro laws
  induction laws with
  | nil => intro r acc h; exact h
  | cons l rest ih =>
    intro r acc h
    rw [applyLaws_cons]
    exact ih _ _ (hP r l h)

theorem applyLaws_fst_id (ctx : Ctx) (now : String) :
    ∀ (laws : List String) (r : Rec) (acc : List String),
      (∀ l ∈ laws, (applyLaw r l ctx now).1 = r) →
      (applyLaws laws ctx now (r, acc)).1 = r := by
  intro laws
  induction laws with
  | nil => intro r acc _; rfl
  | cons l rest ih =>
    intro r acc h
    rw [applyLaws_cons]
    rw [h l (List.mem_cons_self _ _)]
    exact ih r _ (fun l' hl' => h l' (List.mem_cons_of_mem _ hl'))

theorem applyLaws_ccpa_isSome (ctx : Ctx) (now : String) :
    ∀ (laws : List String) (r : Rec) (acc : List String),
      "CCPA" ∈ laws →
      ((applyLaws laws ctx now (r, acc)).1).ccpaRights.isSome = true := by
  intro laws
  induction laws with
  | nil => intro r acc h; cases h
  | cons l rest ih =>
    intro r acc hmem
    rw [applyLaws_cons]
    rcases List.mem_cons.mp hmem with hl | hl
    · exact applyLaws_fst_pres ctx now
        (fun r' => r'.ccpaRights.isSome = true)
        (fun r' law h => applyLaw_ccpa_pres r' law ctx now h) rest _ _
        (by rw [← hl, applyLaw_CCPA]; exact ccpaPass_ccpa_isSome r now)
    · exact ih _ _ hl

/-! ## Law resolution: spec-side characterisation and claim C7 -/

/-- The resolved law set as the spec enumerates it (section 4.4, claim
C7): baseline `GDPR` always; `US` or `CA` add `CCPA`; `BR` adds `LGPD`;
`CA` additionally adds `PIPEDA`; case-insensitive via upper-casing; any
unmapped, absent — or empty, hence falsy — country yields exactly
`GDPR`; fixed stable order `GDPR`, `CCPA`, `LGPD`, `PIPEDA`,
deduplicated. -/
def lawsPerSpec : Option String → List String
  | none => ["GDPR"]
  | some c =>
    if c = "" then ["GDPR"]
    else if c.map Char.toUpper = "US" then ["GDPR", "CCPA"]
    else if c.map Char.toUpper = "CA" then ["GDPR", "CCPA", "PIPEDA"]
    else if c.map Char.toUpper = "BR" then ["GDPR", "LGPD"]
    else ["GDPR"]

theorem determineApplicableLaws_eq (ctx : Ctx) :
    determineApplicableLaws ctx = lawsPerSpec ctx.country := by
  obtain ⟨country, action, ip, ua, mc, ac, pc⟩ := ctx
  cases country with
  | none => rfl
  | some c =>
    simp only [determineApplicableLaws, lawsPerSpec]
    by_cases h0 : c = ""
    · rw [if_pos h0, if_pos h0]
      rfl
    · rw [if_neg h0, if_neg h0]
      by_cases h1 : c.map Char.toUpper = "US"
      · rw [h1]
        rfl
      · by_cases h2 : c.map Char.toUpper = "CA"
        · rw [h2]
          rfl
        · by_cases h3 : c.map Char.toUpper = "BR"
          · rw [h3]
            rfl
          · rw [if_neg (fun hor => hor.elim h1 h2), if_neg h3, if_neg h2]
            rw [if_neg h1, if_neg h2, if_neg h3]
            rfl

theorem laws_shape (ctx : Ctx) :
    ∃ rest, determineApplicableLaws ctx = "GDPR" :: rest := by
  rw [determineApplicableLaws_eq]
  rcases hcy : ctx.country with _ | c
  · exact ⟨[], rfl⟩
  · rw [lawsPerSpec]
    split
    · exact ⟨[], rfl⟩
    · split
      · exact ⟨["CCPA"], rfl⟩
      · split
        · exact ⟨["CCPA", "PIPEDA"], rfl⟩
        · split
          · exact ⟨["LGPD"], rfl⟩
          · exact ⟨[], rfl⟩

/-! ## Stability of auto-encryption

After one `autoEncryptSensitiveFields` pass over a record's own
classifications, every field whose name requires encryption holds
either an encrypted or a falsy value (`lookupOK`); on such a field map
a second pass is the identity. -/

/-- The field at `key` needs no further encryption: absent, already
encrypted, or falsy. -/
def lookupOK (f : List (String × FieldVal)) (key : String) : Prop :=
  match lookupField f key with
  | some v => isEncrypted v = true ∨ truthyF v = false
  | none => True

/-- Every encryption-flagged field name is `lookupOK`. -/
def EncStable (f : List (String × FieldVal)) : Prop :=
  ∀ key, encReq key = true → lookupOK f key

theorem lookupOK_congr {f f' : List (String × FieldVal)} {key : String}
    (h : lookupField f' key = lookupField f key) (hok : lookupOK f key) :
    lookupOK f' key := by
  unfold lookupOK at hok ⊢
  rw [h]
  exact hok

theorem autoEncStep_eq_none (master : Nat) (rnd : String → Nat × Nat)
    (f : List (String × FieldVal)) (c : Classification)
    (hl : lookupField f c.field = none) :
    autoEncStep master rnd f c = f := by
  rw [autoEncStep, hl]

theorem autoEncStep_eq_some (master : Nat) (rnd : String → Nat × Nat)
    (f : List (String × FieldVal)) (c : Classification) (v : FieldVal)
    (hl : lookupField f c.field = some v) :
    autoEncStep master rnd f c =
      (if (c.encryptionRequired && truthyF v && !isEncrypted v) = true then
        setField f c.field
          (encryptField master (rnd c.field).1 (rnd c.field).2 c.field v)
      else f) := by
  rw [autoEncStep, hl]

theorem autoEncStep_lookup_ne (master : Nat) (rnd : String → Nat × Nat)
    (f : List (String × FieldVal)) (c : Classification) (key : String)
    (h : key ≠ c.field) :
    lookupField (autoEncStep master rnd f c) key = lookupField f key := by
  cases hl : lookupField f c.field with
  | none => rw [autoEncStep_eq_none master rnd f c hl]
  | some v =>
    rw [autoEncStep_eq_some master rnd f c v hl]
    by_cases hcond : (c.encryptionRequired && truthyF v && !isEncrypted v) = true
    · rw [if_pos hcond]
      exact lookupField_setField_ne f c.field key _ h
    · rw [if_neg hcond]

theorem autoEncStep_isSome (master : Nat) (rnd : String → Nat × Nat)
    (f : List (String × FieldVal)) (c : Classification) (key : String) :
    (lookupField (autoEncStep master rnd f c) key).isSome
      = (lookupField f key).isSome := by
  by_cases hk : key = c.field
  · rw [hk]
    cases hl : lookupField f c.field with
    | none => rw [autoEncStep_eq_none master rnd f c hl, hl]
    | some v =>
      rw [autoEncStep_eq_some master rnd f c v hl]
      by_cases hcond : (c.encryptionRequired && truthyF v && !isEncrypted v) = true
      · rw [if_pos hcond, lookupField_setField_self]
        rfl
      · rw [if_neg hcond, hl]
  · rw [autoEncStep_lookup_ne master rnd f c key hk]

theorem autoEncStep_untruthy (master : Nat) (rnd : String → Nat × Nat)
    (f : List (String × FieldVal)) (c : Classification) (key : String)
    (h : truthyO (lookupField f key) = false) :
    truthyO (lookupField (autoEncStep master rnd f c) key) = false := by
  by_cases hk : key = c.field
  · rw [hk]
    rw [hk] at h
    cases hl : lookupField f c.field with
    | none => rw [autoEncStep_eq_none master rnd f c hl]; exact h
    | some v =>
      rw [hl] at h
      have hv : truthyF v = false := h
      have hcond : ¬(c.encryptionRequired && truthyF v && !isEncrypted v) = true := by
        rw [hv]
        simp
      rw [autoEncStep_eq_some master rnd f c v hl, if_neg hcond, hl]
      exact hv
  · rw [autoEncStep_lookup_ne master rnd f c key hk]
    exact h

theorem encryptField_isEncrypted (master iv salt : Nat) (name : String)
    (v : FieldVal) (h : truthyF v = true) :
    isEncrypted (encryptField master iv salt name v) = true := by
  cases v with
  | enc e => rfl
  | plain w =>
    have hw : w ≠ JVal.null := by
      intro hw
      rw [hw] at h
      exact absurd h (by decide)
    rw [encryptField, encrypt, if_neg hw]
    rfl

theorem autoEncStep_ok_self (master : Nat) (rnd : String → Nat × Nat)
    (f : List (String × FieldVal)) (c : Classification)
    (hflag : c.encryptionRequired = true) :
    lookupOK (autoEncStep master rnd f c) c.field := by
  cases hl : lookupField f c.field with
  | none =>
    rw [autoEncStep_eq_none master rnd f c hl]
    unfold lookupOK
    rw [hl]
    trivial
  | some v =>
    rw [autoEncStep_eq_some master rnd f c v hl]
    by_cases hcond : (c.encryptionRequired && truthyF v && !isEncrypted v) = true
    · rw [if_pos hcond]
      unfold lookupOK
      rw [lookupField_setField_self]
      left
      apply encryptField_isEncrypted
      cases htv : truthyF v with
      | true => rfl
      | false =>
        rw [hflag, htv] at hcond
        simp at hcond
    · rw [if_neg hcond]
      unfold lookupOK
      rw [hl]
      cases htv : truthyF v with
      | false => right; exact htv
      | true =>
        cases hev : isEncrypted v with
        | true => left; exact hev
        | false =>
          exfalso
          apply hcond
          rw [hflag, htv, hev]
          rfl

theorem autoEncStep_id (master : Nat) (rnd : String → Nat × Nat)
    (f : List (String × FieldVal)) (c : Classification)
    (hwf : c.encryptionRequired = encReq c.field) (hs : EncStable f) :
    autoEncStep master rnd f c = f := by
  cases hl : lookupField f c.field with
  | none => exact autoEncStep_eq_none master rnd f c hl
  | some v =>
    rw [autoEncStep_eq_some master rnd f c v hl]
    cases hflag : c.encryptionRequired with
    | false => rw [if_neg (by simp [hflag])]
    | true =>
      have hok := hs c.field (by rw [← hwf]; exact hflag)
      unfold lookupOK at hok
      rw [hl] at hok
      rcases hok with he | ht
      · rw [if_neg (by simp [he])]
      · rw [if_neg (by simp [ht])]

theorem autoEnc_encStable_go (master : Nat) (rnd : String → Nat × Nat) :
    ∀ (cls : List Classification) (f : List (String × FieldVal)),
      (∀ c ∈ cls, c.encryptionRequired = encReq c.field) →
      (∀ key, encReq key = true →
        lookupOK f key ∨ ∃ c ∈ cls, c.field = key) →
      EncStable (cls.foldl (autoEncStep master rnd) f) := by
  intro cls
  induction cls with
  | nil =>
    intro f hwf hcov key hk
    rcases hcov key hk with h | ⟨c, hc, _⟩
    · exact h
    · cases hc
  | cons c rest ih =>
    intro f hwf hcov
    rw [List.foldl_cons]
    apply ih
    · intro c' hc'
      exact hwf c' (List.mem_cons_of_mem _ hc')
    · intro key hk
      have hflag : c.encryptionRequired = true → True := fun _ => trivial
      rcases hcov key hk with h | ⟨c', hc', hfield⟩
      · left
        by_cases hk2 : key = c.field
        · subst hk2
          exact autoEncStep_ok_self master rnd f c
            (by rw [hwf c (List.mem_cons_self _ _)]; exact hk)
        · exact lookupOK_congr (autoEncStep_lookup_ne master rnd f c key hk2) h
      · rcases List.mem_cons.mp hc' with rfl | hmem
        · left
          rw [← hfield]
          exact autoEncStep_ok_self master rnd f c'
            (by rw [hwf c' (List.mem_cons_self _ _), hfield]; exact hk)
        · right
          exact ⟨c', hmem, hfield⟩

theorem autoEnc_id_go (master : Nat) (rnd : String → Nat × Nat) :
    ∀ (cls : List Classification) (f : List (String × FieldVal)),
      (∀ c ∈ cls, c.encryptionRequired = encReq c.field) →
      EncStable f →
      cls.foldl (autoEncStep master rnd) f = f := by
  intro cls
  induction cls with
  | nil => intro f _ _; rfl
  | cons c rest ih =>
    intro f hwf hs
    rw [List.foldl_cons,
      autoEncStep_id master rnd f c (hwf c (List.mem_cons_self _ _)) hs]
    exact ih f (fun c' hc' => hwf c' (List.mem_cons_of_mem _ hc')) hs

theorem classifyData_wf (f : List (String × FieldVal)) :
    ∀ c ∈ classifyData f, c.encryptionRequired = encReq c.field := by
  intro c hc
  rw [classifyData, List.mem_filterMap] at hc
  obtain ⟨kv, hkv, hmk⟩ := hc
  by_cases hnull : kv.2 = FieldVal.plain .null
  · rw [if_pos hnull] at hmk
    cases hmk
  · rw [if_neg hnull] at hmk
    injection hmk with hmk
    rw [← hmk]
    exact classifyField_encReq kv.1

theorem classifyData_coverage (f : List (String × FieldVal)) :
    ∀ key, encReq key = true →
      lookupOK f key ∨ ∃ c ∈ classifyData f, c.field = key := by
  intro key hk
  cases hl : lookupField f key with
  | none =>
    left
    unfold lookupOK
    rw [hl]
    trivial
  | some v =>
    cases hev : isEncrypted v with
    | true =>
      left
      unfold lookupOK
      rw [hl]
      left
      exact hev
    | false =>
      cases htv : truthyF v with
      | false =>
        left
        unfold lookupOK
        rw [hl]
        right
        exact htv
      | true =>
        right
        have hmem := lookupField_mem hl
        have hvnull : (key, v).2 ≠ FieldVal.plain JVal.null := by
          intro hn
          rw [show v = FieldVal.plain JVal.null from hn] at htv
          exact absurd htv (by decide)
        exact ⟨_, List.mem_filterMap.mpr ⟨(key, v), hmem, by rw [if_neg hvnull]⟩, rfl⟩

theorem autoEnc_encStable (master : Nat) (rnd : String → Nat × Nat)
    (f : List (String × FieldVal)) :
    EncStable (autoEncryptSensitiveFields master rnd f (classifyData f)) :=
  autoEnc_encStable_go master rnd (classifyData f) f (classifyData_wf f)
    (classifyData_coverage f)

theorem autoEnc_id (master : Nat) (rnd : String → Nat × Nat)
    (f : List (String × FieldVal)) (hs : EncStable f) :
    autoEncryptSensitiveFields master rnd f (classifyData f) = f :=
  autoEnc_id_go master rnd (classifyData f) f (classifyData_wf f) hs

theorem autoEnc_lookup_isSome (master : Nat) (rnd : String → Nat × Nat) :
    ∀ (cls : List Classification) (f : List (String × FieldVal)) (key : String),
      (lookupField (cls.foldl (autoEncStep master rnd) f) key).isSome
        = (lookupField f key).isSome := by
  intro cls
  induction cls with
  | nil => intro f key; rfl
  | cons c rest ih =>
    intro f key
    rw [List.foldl_cons, ih, autoEncStep_isSome]

theorem autoEnc_lookup_untruthy (master : Nat) (rnd : String → Nat × Nat) :
    ∀ (cls : List Classification) (f : List (String × FieldVal)) (key : String),
      truthyO (lookupField f key) = false →
      truthyO (lookupField (cls.foldl (autoEncStep master rnd) f) key) = false := by
  intro cls
  induction cls with
  | nil => intro f key h; exact h
  | cons c rest ih =>
    intro f key h
    rw [List.foldl_cons]
    exact ih _ key (autoEncStep_untruthy master rnd f c key h)

/-! ## Properties of a single `process` pass -/

theorem process_data_def (cfg : Config) (r : Rec) (ctx : Ctx)
    (rnd : String → Nat × Nat) (now : String) :
    (process cfg r ctx rnd now).data =
      (if cfg.autoEncrypt then
        { (applyLaws (determineApplicableLaws ctx) ctx now (r, [])).1 with
          fields := autoEncryptSensitiveFields cfg.masterKey rnd
            (applyLaws (determineApplicableLaws ctx) ctx now (r, [])).1.fields
            (classifyData
              (applyLaws (determineApplicableLaws ctx) ctx now (r, [])).1.fields) }
       else (applyLaws (determineApplicableLaws ctx) ctx now (r, [])).1) := rfl

theorem process_warnings_def (cfg : Config) (r : Rec) (ctx : Ctx)
    (rnd : String → Nat × Nat) (now : String) :
    (process cfg r ctx rnd now).warnings
      = checkForWarnings (process cfg r ctx rnd now).data := rfl

theorem process_data_consent (cfg : Config) (r : Rec) (ctx : Ctx)
    (rnd : String → Nat × Nat) (now : String) :
    (process cfg r ctx rnd now).data.consent
      = (applyLaws (determineApplicableLaws ctx) ctx now (r, [])).1.consent := by
  rw [process_data_def]
  split <;> rfl

theorem process_data_deletionMetadata (cfg : Config) (r : Rec) (ctx : Ctx)
    (rnd : String → Nat × Nat) (now : String) :
    (process cfg r ctx rnd now).data.deletionMetadata
      = (applyLaws (determineApplicableLaws ctx) ctx now (r, [])).1.deletionMetadata := by
  rw [process_data_def]
  split <;> rfl

theorem process_data_ccpaRights (cfg : Config) (r : Rec) (ctx : Ctx)
    (rnd : String → Nat × Nat) (now : String) :
    (process cfg r ctx rnd now).data.ccpaRights
      = (applyLaws (determineApplicableLaws ctx) ctx now (r, [])).1.ccpaRights := by
  rw [process_data_def]
  split <;> rfl

theorem process_consent_isSome (cfg : Config) (r : Rec) (ctx : Ctx)
    (rnd : String → Nat × Nat) (now : String) :
    (process cfg r ctx rnd now).data.consent.isSome = true := by
  rw [process_data_consent]
  obtain ⟨rest, hlaws⟩ := laws_shape ctx
  rw [hlaws, applyLaws_cons]
  apply applyLaws_fst_pres ctx now (fun r' => r'.consent.isSome = true)
    (fun r' law h => applyLaw_consent_pres r' law ctx now h)
  rw [applyLaw_GDPR]
  exact gdprPass_consent_isSome r ctx now

theorem process_delMeta_isSome (cfg : Config) (r : Rec) (ctx : Ctx)
    (rnd : String → Nat × Nat) (now : String) :
    (process cfg r ctx rnd now).data.deletionMetadata.isSome = true := by
  rw [process_data_deletionMetadata]
  obtain ⟨rest, hlaws⟩ := laws_shape ctx
  rw [hlaws, applyLaws_cons]
  apply applyLaws_fst_pres ctx now (fun r' => r'.deletionMetadata.isSome = true)
    (fun r' law h => applyLaw_delMeta_pres r' law ctx now h)
  rw [applyLaw_GDPR]
  exact gdprPass_delMeta_isSome r ctx now

theorem process_ccpa_isSome (cfg : Config) (r : Rec) (ctx : Ctx)
    (rnd : String → Nat × Nat) (now : String)
    (h : "CCPA" ∈ determineApplicableLaws ctx) :
    (process cfg r ctx rnd now).data.ccpaRights.isSome = true := by
  rw [process_data_ccpaRights]
  exact applyLaws_ccpa_isSome ctx now _ r [] h

theorem gdprPass_gps_untruthy (r : Rec) (ctx : Ctx) (now : String)
    (hreg : ctx.action = some "registration")
    (hex : hasExcessiveData r.fields = true) :
    truthyO (lookupField (gdprPass r ctx now).1.fields "gps") = false := by
  rw [gdprPass, gdprDeletion_fields, gdprMinimize, if_pos hex]
  show truthyO (lookupField
    (minimizeData (gdprConsent r ctx now).1.fields ctx) "gps") = false
  exact minimizeData_gps_untruthy _ ctx hreg

theorem process_fields_def (cfg : Config) (r : Rec) (ctx : Ctx)
    (rnd : String → Nat × Nat) (now : String) :
    (process cfg r ctx rnd now).data.fields =
      (if cfg.autoEncrypt then
        autoEncryptSensitiveFields cfg.masterKey rnd
          (applyLaws (determineApplicableLaws ctx) ctx now (r, [])).1.fields
          (classifyData
            (applyLaws (determineApplicableLaws ctx) ctx now (r, [])).1.fields)
       else (applyLaws (determineApplicableLaws ctx) ctx now (r, [])).1.fields) := by
  rw [process_data_def]
  split <;> rfl

theorem process_gps_untruthy (cfg : Config) (r : Rec) (ctx : Ctx)
    (rnd : String → Nat × Nat) (now : String)
    (hreg : ctx.action = some "registration")
    (hex : hasExcessiveData r.fields = true) :
    truthyO (lookupField (process cfg r ctx rnd now).data.fields "gps")
      = false := by
  have hfold : truthyO (lookupField
      (applyLaws (determineApplicableLaws ctx) ctx now (r, [])).1.fields "gps")
      = false := by
    obtain ⟨rest, hlaws⟩ := laws_shape ctx
    rw [hlaws, applyLaws_cons]
    apply applyLaws_fst_pres ctx now
      (fun r' => truthyO (lookupField r'.fields "gps") = false)
      (fun r' law h => applyLaw_gps_untruthy_pres r' law ctx now h)
    rw [applyLaw_GDPR]
    exact gdprPass_gps_untruthy r ctx now hreg hex
  rw [process_fields_def]
  split
  · exact autoEnc_lookup_untruthy cfg.masterKey rnd _ _ "gps" hfold
  · exact hfold

theorem process_hasExcessive (cfg : Config) (r : Rec) (ctx : Ctx)
    (rnd : String → Nat × Nat) (now : String) :
    hasExcessiveData (process cfg r ctx rnd now).data.fields
      = hasExcessiveData r.fields := by
  have hfold : hasExcessiveData
      (applyLaws (determineApplicableLaws ctx) ctx now (r, [])).1.fields
      = hasExcessiveData r.fields := by
    apply applyLaws_fst_pres ctx now
      (fun r' => hasExcessiveData r'.fields = hasExcessiveData r.fields)
      (fun r' law h => (applyLaw_hasExcessive r' law ctx now).trans h)
    rfl
  rw [process_fields_def]
  split
  · rw [hasExcessiveData_eq, hasExcessiveData_eq] at hfold ⊢
    rw [autoEncryptSensitiveFields, autoEnc_lookup_isSome, autoEnc_lookup_isSome,
      autoEnc_lookup_isSome]
    exact hfold
  · exact hfold

theorem process_lookup_noenc (cfg : Config) (hcfg : cfg.autoEncrypt = false)
    (r : Rec) (ctx : Ctx) (rnd : String → Nat × Nat) (now : String)
    (key : String) (hk : key ≠ "gps") :
    lookupField (process cfg r ctx rnd now).data.fields key
      = lookupField r.fields key := by
  rw [process_fields_def, if_neg (by rw [hcfg]; exact Bool.false_ne_true)]
  apply applyLaws_fst_pres ctx now
    (fun r' => lookupField r'.fields key = lookupField r.fields key)
    (fun r' law h => (applyLaw_lookup_ne_gps r' law ctx now key hk).trans h)
  rfl

/-! ## Idempotence of `process` (claim C3) -/

/-- The length of the consent history carried by a record. -/
def consentHistoryLength (r : Rec) : Nat :=
  match r.consent with
  | some cs => cs.history.length
  | none => 0

/-- The number of record fields holding an `EncryptedField` value. -/
def encryptedFieldCount (fields : List (String × FieldVal)) : Nat :=
  (fields.filter (fun kv => isEncrypted kv.2)).length

theorem laws_mem_cases (ctx : Ctx) :
    ∀ l ∈ determineApplicableLaws ctx,
      l = "GDPR" ∨ l = "CCPA" ∨ l = "LGPD" ∨ l = "PIPEDA" := by
  rw [determineApplicableLaws_eq]
  cases ctx.country with
  | none =>
    intro l hl
    simp only [lawsPerSpec, List.mem_singleton] at hl
    exact Or.inl hl
  | some c =>
    rw [lawsPerSpec]
    split
    · intro l hl
      simp only [List.mem_singleton] at hl
      exact Or.inl hl
    · split
      · intro l hl
        rcases List.mem_cons.mp hl with h | h
        · exact Or.inl h
        · simp only [List.mem_singleton] at h
          exact Or.inr (Or.inl h)
      · split
        · intro l hl
          rcases List.mem_cons.mp hl with h | h
          · exact Or.inl h
          · rcases List.mem_cons.mp h with h2 | h2
            · exact Or.inr (Or.inl h2)
            · simp only [List.mem_singleton] at h2
              exact Or.inr (Or.inr (Or.inr h2))
        · split
          · intro l hl
            rcases List.mem_cons.mp hl with h | h
            · exact Or.inl h
            · simp only [List.mem_singleton] at h
              exact Or.inr (Or.inr (Or.inl h))
          · intro l hl
            simp only [List.mem_singleton] at hl
            exact Or.inl hl

theorem process_data_idem (cfg : Config) (r : Rec) (ctx : Ctx)
    (rnd rnd2 : String → Nat × Nat) (now now2 : String) :
    (process cfg (process cfg r ctx rnd now).data ctx rnd2 now2).data
      = (process cfg r ctx rnd now).data := by
  set p1 := (process cfg r ctx rnd now).data with hp1
  have hS1 : p1.consent.isSome = true :=
    process_consent_isSome cfg r ctx rnd now
  have hS2 : p1.deletionMetadata.isSome = true :=
    process_delMeta_isSome cfg r ctx rnd now
  have hS4 : hasExcessiveData p1.fields = true →
      minimizeData p1.fields ctx = p1.fields := by
    intro hex
    apply minimizeData_id_of
    by_cases hreg : ctx.action = some "registration"
    · right
      have hex0 : hasExcessiveData r.fields = true := by
        rw [← process_hasExcessive cfg r ctx rnd now]
        exact hex
      exact process_gps_untruthy cfg r ctx rnd now hreg hex0
    · left
      exact hreg
  have hid : ∀ l ∈ determineApplicableLaws ctx,
      (applyLaw p1 l ctx now2).1 = p1 := by
    intro l hl
    rw [applyLaw]
    by_cases hg : l = "GDPR"
    · rw [if_pos hg]
      exact gdprPass_id p1 ctx now2 hS1 hS2 hS4
    · rw [if_neg hg]
      by_cases hc : l = "CCPA"
      · rw [if_pos hc,
          ccpaPass_id p1 now2 (process_ccpa_isSome cfg r ctx rnd now (hc ▸ hl))]
      · rw [if_neg hc]
  have hfold : (applyLaws (determineApplicableLaws ctx) ctx now2 (p1, [])).1 = p1 :=
    applyLaws_fst_id ctx now2 _ p1 [] hid
  rw [process_data_def, hfold]
  by_cases hae : cfg.autoEncrypt
  · rw [if_pos hae]
    have hstable : EncStable p1.fields := by
      rw [hp1, process_fields_def, if_pos hae]
      exact autoEnc_encStable cfg.masterKey rnd _
    rw [autoEnc_id cfg.masterKey rnd2 p1.fields hstable]
  · rw [if_neg hae]

/-- C3: applying `process` a second time (same context and
configuration) to the output of a first `process` changes neither the
consent-history length, nor the number of encrypted fields
(already-encrypted fields are not re-encrypted), nor the
deletion-metadata block, nor the CCPA-rights block — in fact the whole
output record is unchanged (`process_data_idem`). -/
theorem c3_process_idempotent (cfg : Config) (r : Rec) (ctx : Ctx)
    (rnd rnd2 : String → Nat × Nat) (now now2 : String) :
    consentHistoryLength
        (process cfg (process cfg r ctx rnd now).data ctx rnd2 now2).data
      = consentHistoryLength (process cfg r ctx rnd now).data ∧
    encryptedFieldCount
        (process cfg (process cfg r ctx rnd now).data ctx rnd2 now2).data.fields
      = encryptedFieldCount (process cfg r ctx rnd now).data.fields ∧
    (process cfg (process cfg r ctx rnd now).data ctx rnd2 now2).data.deletionMetadata
      = (process cfg r ctx rnd now).data.deletionMetadata ∧
    (process cfg (process cfg r ctx rnd now).data ctx rnd2 now2).data.ccpaRights
      = (process cfg r ctx rnd now).data.ccpaRights := by
  rw [process_data_idem cfg r ctx rnd rnd2 now now2]
  exact ⟨rfl, rfl, rfl, rfl⟩

/-! ## Claims C7, C4, C5 -/

/-- C7: the resolved law set is a deterministic, case-insensitive
function of `context.country` and equals the spec's enumeration
(`lawsPerSpec`): always `GDPR` first; `US`/`CA` add `CCPA`; `BR` adds
`LGPD`; `CA` additionally `PIPEDA`; any unmapped or absent country gives
exactly `[GDPR]`; stable deduplicated order. -/
theorem c7_law_resolution (ctx : Ctx) :
    determineApplicableLaws ctx = lawsPerSpec ctx.country :=
  determineApplicableLaws_eq ctx

theorem checkForWarnings_password_iff (r : Rec) :
    (∃ w ∈ checkForWarnings r, w.level = "high" ∧ w.field = some "password") ↔
    (∃ s, lookupField r.fields "password" = some (.plain (.str s)) ∧
      s ≠ [] ∧ s.length < 12) := by
  constructor
  · rintro ⟨w, hw, hlev, hf⟩
    rw [checkForWarnings] at hw
    rcases List.mem_append.mp hw with hw12 | hw3
    · rcases List.mem_append.mp hw12 with hw1 | hw2
      · cases hl : lookupField r.fields "password" with
        | none =>
          rw [hl] at hw1
          cases hw1
        | some v =>
          rw [hl] at hw1
          by_cases hcond : (truthyF v && jsLengthLt12 v) = true
          · rw [Bool.and_eq_true] at hcond
            obtain ⟨ht, hlen⟩ := hcond
            cases v with
            | enc e => simp [jsLengthLt12] at hlen
            | plain jv =>
              cases jv with
              | str s =>
                refine ⟨s, rfl, ?_, ?_⟩
                · exact of_decide_eq_true ht
                · exact of_decide_eq_true hlen
              | null => simp [jsLengthLt12] at hlen
              | bool b => simp [jsLengthLt12] at hlen
              | int i => simp [jsLengthLt12] at hlen
          · have hw1' : w ∈ (if (truthyF v && jsLengthLt12 v) = true then
                [({ level := "high"
                    message := "Password is too weak (minimum 12 characters recommended)"
                    field := some "password"
                    recommendation := some "enforce_stronger_password_policy" } : Warning)]
                else []) := hw1
            rw [if_neg hcond] at hw1'
            cases hw1'
      · exfalso
        split at hw2
        · cases hw2
        · rw [List.mem_singleton] at hw2
          rw [hw2] at hlev
          exact absurd hlev (by decide)
    · exfalso
      have hw3' : w ∈ (if 3 < ((classifyData r.fields).filter
          (fun c => decide (c.sensitivity = "high" ∨ c.sensitivity = "critical"))).length then
          [({ level := "medium"
              message := "Collecting " ++ toString ((classifyData r.fields).filter
                (fun c => decide (c.sensitivity = "high" ∨ c.sensitivity = "critical"))).length ++
                " high-sensitivity fields - consider data minimization"
              field := none
              recommendation := some "review_data_collection_practices" } : Warning)]
          else []) := hw3
      split at hw3'
      · rw [List.mem_singleton] at hw3'
        rw [hw3'] at hlev
        exact absurd hlev (by simp)
      · cases hw3'
  · rintro ⟨s, hl, hne, hlt⟩
    refine ⟨{ level := "high"
              message := "Password is too weak (minimum 12 characters recommended)"
              field := some "password"
              recommendation := some "enforce_stronger_password_policy" },
      ?_, rfl, rfl⟩
    rw [checkForWarnings]
    apply List.mem_append.mpr
    left
    apply List.mem_append.mpr
    left
    rw [hl]
    show _ ∈ (if (truthyF (FieldVal.plain (.str s))
        && jsLengthLt12 (FieldVal.plain (.str s))) = true then
      [({ level := "high"
          message := "Password is too weak (minimum 12 characters recommended)"
          field := some "password"
          recommendation := some "enforce_stronger_password_policy" } : Warning)]
      else [])
    rw [if_pos (by simp [truthyF, truthy, jsLengthLt12, hne, hlt])]
    exact List.mem_singleton.mpr rfl

/-- C4, counterexample: with the default configuration
(`autoEncrypt: true`), a record whose `password` is the 8-character
string `"weakpass"` produces *no* high-severity password warning from
`process` — the password has already been replaced by an
`EncryptedField` (which has no `.length`) when `checkForWarnings`
runs; the only warning emitted is the medium missing-consent one. -/
def c4Rec : Rec :=
  { fields := [("password",
      FieldVal.plain (.str ['w', 'e', 'a', 'k', 'p', 'a', 's', 's']))] }

/-- C4, counterexample theorem (see `c4Rec`). -/
theorem c4_password_warning_counterexample :
    lookupField c4Rec.fields "password"
      = some (.plain (.str ['w', 'e', 'a', 'k', 'p', 'a', 's', 's'])) ∧
    (['w', 'e', 'a', 'k', 'p', 'a', 's', 's'] : List Char).length < 12 ∧
    (process ({} : Config) c4Rec {} (fun _ => (0, 0)) "t").warnings =
      [{ level := "medium"
         message := "No explicit consent recorded for data processing"
         field := some "_complianceConsent"
         recommendation := some "capture_explicit_consent_with_timestamp" }] := by
  refine ⟨rfl, by decide, ?_⟩
  rfl

/-- C4, amended: with auto-encryption disabled, `process` emits the
high-severity password warning exactly when the record's `password`
field is a non-empty string shorter than 12 characters (an empty
string is falsy and skips the check; with auto-encryption enabled the
check never fires on an encryptable password, see the
counterexample). -/
theorem c4_password_warning (cfg : Config) (hcfg : cfg.autoEncrypt = false)
    (r : Rec) (ctx : Ctx) (rnd : String → Nat × Nat) (now : String) :
    (∃ w ∈ (process cfg r ctx rnd now).warnings,
        w.level = "high" ∧ w.field = some "password") ↔
    (∃ s, lookupField r.fields "password" = some (.plain (.str s)) ∧
      s ≠ [] ∧ s.length < 12) := by
  rw [process_warnings_def, checkForWarnings_password_iff,
    process_lookup_noenc cfg hcfg r ctx rnd now "password" (by decide)]

/-- Witness for `c4_password_warning`: with `autoEncrypt := false` the
weak password does produce the high warning. -/
theorem c4_password_warning_witness :
    (∃ w ∈ (process { autoEncrypt := false, masterKey := 0 } c4Rec {}
        (fun _ => (0, 0)) "t").warnings,
      w.level = "high" ∧ w.field = some "password") :=
  (c4_password_warning { autoEncrypt := false, masterKey := 0 } rfl c4Rec {}
      (fun _ => (0, 0)) "t").mpr
    ⟨['w', 'e', 'a', 'k', 'p', 'a', 's', 's'], rfl, by decide, by decide⟩

/-- C5 (code bug): processing the empty record with the default
configuration records consent (the GDPR pass installs `_consent`), yet
the returned warnings still contain the medium "no explicit consent
recorded" warning — `checkForWarnings` tests `data._complianceConsent`
(RuleEngine.js line 414), a key that no code path ever writes, instead
of the `data._consent` block that `recordConsent` populates. -/
theorem c5_missing_consent_bug :
    (process ({} : Config) ({} : Rec) {} (fun _ => (0, 0)) "t").data.consent.isSome
      = true ∧
    (process ({} : Config) ({} : Rec) {} (fun _ => (0, 0)) "t").warnings =
      [{ level := "medium"
         message := "No explicit consent recorded for data processing"
         field := some "_complianceConsent"
         recommendation := some "capture_explicit_consent_with_timestamp" }] :=
  ⟨rfl, rfl⟩

end DG
